import Mathlib

/-!
Verification development for the NSAI-2025-Survey screening dashboard.

The definitions below are a shallow embedding of `docs/script.js` (and, where
noted, of the exclusion analyzer described by
`src/README_exclusion_analyzer.md`).  JS strings are Lean `String`s, JS
numbers holding counts are `Int`, JS numbers holding percentages are `Rat`
(exact rational arithmetic), JS objects are association lists in insertion
order, JS `null`/`undefined` is `Option.none`, and JS truthiness of string
fields (`undefined`, `null` and `""` are falsy) is made explicit.
-/

/-- JS `String.prototype.toLowerCase`, restricted to the ASCII range that the
data and the string literals of `docs/script.js` use. -/
def jsToLower (s : String) : String :=
  String.mk (s.data.map Char.toLower)

/-- JS `String.prototype.startsWith`, computed on the character lists so the
kernel can evaluate it. -/
def jsStartsWith (s pre : String) : Bool :=
  pre.data.isPrefixOf s.data

/-- JS `key.replace(/"/g, '')`: remove every double-quote character. -/
def stripQuoteChars (s : String) : String :=
  String.mk (s.data.filter (fun c => !(c == '\x22')))

/-- JS `String.prototype.substring(n)`. -/
def jsDrop (s : String) (n : Nat) : String :=
  String.mk (s.data.drop n)

/-- JS `String.prototype.trim`. -/
def jsTrim (s : String) : String :=
  String.mk (((s.data.dropWhile Char.isWhitespace).reverse.dropWhile Char.isWhitespace).reverse)

/-- Helper for `jsSplit`: split the character list at every separator,
keeping empty fragments (as JS `split` does). -/
def splitAux (p : Char → Bool) : List Char → List Char → List String
  | [], cur => [String.mk cur.reverse]
  | c :: t, cur =>
      if p c then String.mk cur.reverse :: splitAux p t []
      else splitAux p t (c :: cur)

/-- JS `String.prototype.split` on a class of separator characters. -/
def jsSplit (s : String) (p : Char → Bool) : List String :=
  splitAux p s.data []

/-- Helper for `jsIncludes`: is `n` a contiguous infix of the second list? -/
def isInfixChars (n : List Char) : List Char → Bool
  | [] => n.isEmpty
  | c :: t => n.isPrefixOf (c :: t) || isInfixChars n t

/-- JS `String.prototype.includes`: `jsIncludes s sub` is true iff `sub`
occurs contiguously inside `s`. -/
def jsIncludes (s sub : String) : Bool :=
  isInfixChars sub.data s.data

/-- JS truthiness of a possibly-missing string field: `undefined`, `null`
and the empty string are falsy, every other string is truthy. -/
def optTruthy : Option String → Bool
  | none => false
  | some s => !(s == "")

/-- Association-list lookup, mirroring JS object property access
(`obj[key]`, `undefined` when the key is absent). -/
def alookup {β : Type} : List (String × β) → String → Option β
  | [], _ => none
  | (k, v) :: t, c => if k = c then some v else alookup t c

/-- JS object property assignment `obj[key] = v`: update an existing key in
place (keeping insertion order), otherwise append the new key at the end. -/
def aset {β : Type} : List (String × β) → String → β → List (String × β)
  | [], k, v => [(k, v)]
  | (k0, v0) :: t, k, v =>
      if k0 = k then (k0, v) :: t else (k0, v0) :: aset t k v

/-- One entry of `article.customizations` (the Rayyan reviewer key/value
log; see `src/README_exclusion_analyzer.md` and `extractExclusionCriteria`
in `docs/script.js`).  The provenance fields are carried but never read by
the embedded logic. -/
structure Customization where
  created_at : String
  user_id : String
  user_email : String
  key : String
  value : String
  deriving DecidableEq

/-- An article record as consumed by `docs/script.js` (produced by
`data_processor.py` / `generate_final_lists.py`); optional descriptive
fields are `Option String`, `excel_data` is an optional field-name map. -/
structure Article where
  article_id : String
  title : Option String
  author : Option String
  year : Option String
  url : Option String
  abstract : Option String
  note : Option String
  customizations : List Customization
  excel_data : Option (List (String × String))
  repository_url : Option String
  reproduction_category : Option String
  deriving DecidableEq

/-- A fully absent article record, used to build concrete test inputs. -/
def blankArticle : Article :=
  ⟨"", none, none, none, none, none, none, [], none, none, none⟩

/-- `docs/script.js` lines 1439-1454, `extractExclusionCriteria`: collect,
in order, the quote-stripped keys of the customization entries whose raw
key starts with `"__EXR__` (a literal double quote followed by the marker)
and whose value is the string `"1"`.  The JS pushes into an array, so
duplicate flags produce duplicate entries. -/
def extractExclusionCriteria (article : Article) : List String :=
  article.customizations.foldl
    (fun criteria c =>
      if jsStartsWith c.key "\x22__EXR__" && c.value == "1" then
        criteria ++ [stripQuoteChars c.key]
      else criteria)
    []

/-- Rendering of claim C1's reading of spec section 4.1 (not of the code),
for comparison with `extractExclusionCriteria`: strip wrapping quote
characters from the key; if the stripped key starts with the reserved
marker `__EXR__` and the value equals `"1"`, add the remainder of the key
after the marker (the code without the marker). -/
def specExtractExclusionCriteria (article : Article) : List String :=
  article.customizations.foldl
    (fun criteria c =>
      if jsStartsWith (stripQuoteChars c.key) "__EXR__" && c.value == "1" then
        criteria ++ [jsDrop (stripQuoteChars c.key) 7]
      else criteria)
    []

/-- `docs/script.js` lines 1457-1473: the `reasonMap` lookup table of
`getReadableExclusionReason`, as an association list in source order. -/
def reasonMap : List (String × String) :=
  [("__EXR__off-topic", "Off-topic/Not neuro-symbolic"),
   ("__EXR__no-codebase", "No codebase/implementation"),
   ("__EXR__survey", "review/background article"),
   ("__EXR__background article", "review/background article"),
   ("__EXR__not-research", "Not research paper"),
   ("__EXR__no-eval", "No evaluation"),
   ("__EXR__duplicate", "Duplicate"),
   ("__EXR__review", "review/background article"),
   ("__EXR__no-fulltext", "no-fulltext"),
   ("__EXR__not-in-english", "not-in-english"),
   ("__EXR__foreign language", "not-in-english"),
   ("__EXR__c", "No codebase/implementation"),
   ("__EXR__wrong outcome", "No codebase/implementation"),
   ("__EXR__engl", "No codebase/implementation"),
   ("__EXR__v", "No codebase/implementation")]

/-- `docs/script.js` lines 1456-1476, `getReadableExclusionReason`:
`reasonMap[criterion] || criterion` (unknown codes pass through). -/
def getReadableExclusionReason (criterion : String) : String :=
  (alookup reasonMap criterion).getD criterion

/-- A `{count, percentage}` cell of `individual_criteria_counts`
(`screening_overview_enriched.json`); the count is an exact integer, the
percentage an exact rational. -/
structure Info where
  count : Int
  percentage : Rat
  deriving DecidableEq

/-- The `+=` upsert used on `consolidatedData[consolidatedReason]` by
`populateOverview`, `createSankeyDiagram` and
`categorizeExcludedPapersFromConsolidatedData`: initialize a missing key to
`{count: 0, percentage: 0}` and add the entry's count and percentage. -/
def upsertInfo : List (String × Info) → String → Int → Rat → List (String × Info)
  | [], k, cv, pv => [(k, ⟨cv, pv⟩)]
  | (k0, i0) :: t, k, cv, pv =>
      if k0 = k then (k0, ⟨i0.count + cv, i0.percentage + pv⟩) :: t
      else (k0, i0) :: upsertInfo t k cv pv

/-- `docs/script.js` lines 453-464 (inside `populateOverview`): the
raw-reason → consolidated-category mapping used by the exclusion-reason
table and pie chart. -/
def overviewConsolidateReason (reason : String) : String :=
  if reason = "Survey/review paper" || reason = "Review paper" || reason = "Background article" then
    "review/background article"
  else if reason = "Other/Unclear" || reason = "__EXR__wrong outcome"
      || reason = "__EXR__engl" || reason = "__EXR__v" then
    "No codebase/implementation"
  else if reason = "__EXR__no-fulltext" then
    "no-fulltext"
  else if reason = "__EXR__not-in-english" || reason = "__EXR__foreign language" then
    "not-in-english"
  else reason

/-- `docs/script.js` lines 448-471 (inside `populateOverview`): fold the
raw breakdown into `consolidatedData`, summing counts and percentages. -/
def overviewConsolidate (breakdown : List (String × Info)) : List (String × Info) :=
  breakdown.foldl
    (fun acc e => upsertInfo acc (overviewConsolidateReason e.1) e.2.count e.2.percentage)
    []

/-- `docs/script.js` lines 609-619 (inside `createSankeyDiagram`): the same
raw-reason → consolidated-category mapping, re-implemented there. -/
def sankeyConsolidateReason (reason : String) : String :=
  if reason = "Survey/review paper" || reason = "Review paper" || reason = "Background article" then
    "review/background article"
  else if reason = "Other/Unclear" || reason = "__EXR__wrong outcome"
      || reason = "__EXR__engl" || reason = "__EXR__v" then
    "No codebase/implementation"
  else if reason = "__EXR__no-fulltext" then
    "no-fulltext"
  else if reason = "__EXR__not-in-english" || reason = "__EXR__foreign language" then
    "not-in-english"
  else reason

/-- `docs/script.js` lines 602-626 (inside `createSankeyDiagram`): the
`consolidatedBreakdown` fold, re-implemented there with the same logic as
the exclusion-reason table. -/
def sankeyConsolidate (breakdown : List (String × Info)) : List (String × Info) :=
  breakdown.foldl
    (fun acc e => upsertInfo acc (sankeyConsolidateReason e.1) e.2.count e.2.percentage)
    []

/-- `docs/script.js` lines 1392-1403 (inside
`categorizeExcludedPapersFromConsolidatedData`): the same raw-reason →
consolidated-category mapping, re-implemented a third time. -/
def dropdownConsolidateReason (reason : String) : String :=
  if reason = "Survey/review paper" || reason = "Review paper" || reason = "Background article" then
    "review/background article"
  else if reason = "Other/Unclear" || reason = "__EXR__wrong outcome"
      || reason = "__EXR__engl" || reason = "__EXR__v" then
    "No codebase/implementation"
  else if reason = "__EXR__no-fulltext" then
    "no-fulltext"
  else if reason = "__EXR__not-in-english" || reason = "__EXR__foreign language" then
    "not-in-english"
  else reason

/-- `docs/script.js` lines 1387-1410 (inside
`categorizeExcludedPapersFromConsolidatedData`): the `consolidatedData`
fold of the dropdown view. -/
def dropdownConsolidate (breakdown : List (String × Info)) : List (String × Info) :=
  breakdown.foldl
    (fun acc e => upsertInfo acc (dropdownConsolidateReason e.1) e.2.count e.2.percentage)
    []

/-- Count stored for a category in a consolidated breakdown
(0 when the category is absent). -/
def countAt (l : List (String × Info)) (c : String) : Int :=
  ((alookup l c).map Info.count).getD 0

/-- Percentage stored for a category in a consolidated breakdown
(0 when the category is absent). -/
def pctAt (l : List (String × Info)) (c : String) : Rat :=
  ((alookup l c).map Info.percentage).getD 0

/-- Total of the counts of a breakdown (raw or consolidated). -/
def countTotal (l : List (String × Info)) : Int :=
  (l.map (fun e => e.2.count)).sum

/-- Total of the percentages of a breakdown (raw or consolidated). -/
def pctTotal (l : List (String × Info)) : Rat :=
  (l.map (fun e => e.2.percentage)).sum

/-- Input data of `createSankeyDiagram` (`docs/script.js` lines 591-599):
the overview totals (`total_results_retrieved`, `after_dedup_rayyan`,
`included_within_scope`, `excluded_out_of_scope.total_count`) and the raw
`individual_criteria_counts` breakdown. -/
structure SankeyInput where
  totalHits : Int
  afterDedup : Int
  included : Int
  excluded : Int
  breakdown : List (String × Info)
  deriving DecidableEq

/-- A link of the flow diagram (`{source, target, value}`). -/
structure SLink where
  source : Nat
  target : Nat
  value : Int
  deriving DecidableEq

/-- A node of the flow diagram (`{id, name}`). -/
structure SNode where
  id : Nat
  name : String
  deriving DecidableEq

/-- `docs/script.js` line 599: `duplicatesRemoved = totalHits - afterDedup`. -/
def duplicatesRemoved (inp : SankeyInput) : Int :=
  inp.totalHits - inp.afterDedup

/-- `docs/script.js` lines 629-630: sort the consolidated breakdown by
count (descending) and keep the top 8 reasons.  JS `Array.prototype.sort`
is modelled by a stable insertion sort under the comparator
`(a, b) => b[1].count - a[1].count`. -/
def topExclusionReasons (inp : SankeyInput) : List (String × Info) :=
  (List.insertionSort (fun a b : String × Info => b.2.count ≤ a.2.count)
    (sankeyConsolidate inp.breakdown)).take 8

/-- `docs/script.js` line 655: the sum of the displayed top-reason counts. -/
def accountedFor (inp : SankeyInput) : Int :=
  ((topExclusionReasons inp).map (fun e => e.2.count)).sum

/-- `docs/script.js` line 656: `remainingExcluded = excluded - accountedFor`. -/
def remainingExcluded (inp : SankeyInput) : Int :=
  inp.excluded - accountedFor inp

/-- `docs/script.js` lines 646-652: one link `source 2 → nodeId` per top
exclusion reason, with consecutive fresh node ids. -/
def topLinksFrom : Nat → List (String × Info) → List SLink
  | _, [] => []
  | nid, e :: es => ⟨2, nid, e.2.count⟩ :: topLinksFrom (nid + 1) es

/-- `docs/script.js` lines 646-652: the node added for each top exclusion
reason, named `reason (count)`. -/
def topNodesFrom : Nat → List (String × Info) → List SNode
  | _, [] => []
  | nid, e :: es =>
      ⟨nid, e.1 ++ " (" ++ toString e.2.count ++ ")"⟩ :: topNodesFrom (nid + 1) es

/-- `docs/script.js` lines 667-678: the hardcoded data-extraction funnel
breakdown used both by the flow diagram and the second pie chart. -/
def funnelBreakdown : List (String × Int) :=
  [("Fully Reproduced", 48),
   ("Partially Reproduced (above threshold)", 37),
   ("Has All Artifacts but Failed", 7),
   ("Missing Code", 42),
   ("Not Attempted - No Fulltext", 6),
   ("Not Attempted - Off Topic", 30),
   ("Not Attempted - Not a Research Article", 1),
   ("Not Attempted - Background Article", 3),
   ("No quantitative evaluation", 21),
   ("Missing Some Artifacts (not code, e.g. data, model, etc.)", 321)]

/-- `docs/script.js` lines 680-685: one link `source 3 → nodeId` per funnel
outcome, with consecutive fresh node ids. -/
def funnelLinksFrom : Nat → List (String × Int) → List SLink
  | _, [] => []
  | nid, e :: es => ⟨3, nid, e.2⟩ :: funnelLinksFrom (nid + 1) es

/-- `docs/script.js` lines 680-685: the node added for each funnel outcome,
named `name (count)`. -/
def funnelNodesFrom : Nat → List (String × Int) → List SNode
  | _, [] => []
  | nid, e :: es => ⟨nid, e.1 ++ " (" ++ toString e.2 ++ ")"⟩ :: funnelNodesFrom (nid + 1) es

/-- Node id that the "Other reasons" node receives when it is emitted
(the `nodeId` counter after the top-reason nodes, which start at 4). -/
def otherNodeId (inp : SankeyInput) : Nat :=
  4 + (topExclusionReasons inp).length

/-- Node id of the first funnel node (`funnelStartNodeId` in the source):
the counter after the optional "Other reasons" node. -/
def funnelStartNodeId (inp : SankeyInput) : Nat :=
  otherNodeId inp + (if 0 < remainingExcluded inp then 1 else 0)

/-- `docs/script.js` lines 640-685: the full link list of the flow diagram,
in push order: the three base links, the top-reason links, the "Other
reasons" link (only when the remainder is strictly positive), and the
funnel links. -/
def sankeyLinks (inp : SankeyInput) : List SLink :=
  [⟨0, 1, duplicatesRemoved inp⟩, ⟨0, 2, inp.afterDedup⟩, ⟨2, 3, inp.included⟩]
    ++ topLinksFrom 4 (topExclusionReasons inp)
    ++ (if 0 < remainingExcluded inp then
          [⟨2, otherNodeId inp, remainingExcluded inp⟩]
        else [])
    ++ funnelLinksFrom (funnelStartNodeId inp) funnelBreakdown

/-- `docs/script.js` lines 633-685: the full node list of the flow diagram,
in push order (`toLocaleString` is modelled as `toString`). -/
def sankeyNodes (inp : SankeyInput) : List SNode :=
  [⟨0, "Total Hits (" ++ toString inp.totalHits ++ ")"⟩,
   ⟨1, "Duplicates Removed (" ++ toString (duplicatesRemoved inp) ++ ")"⟩,
   ⟨2, "After Dedup (" ++ toString inp.afterDedup ++ ")"⟩,
   ⟨3, "In-Scope (" ++ toString inp.included ++ ")"⟩]
    ++ topNodesFrom 4 (topExclusionReasons inp)
    ++ (if 0 < remainingExcluded inp then
          [⟨otherNodeId inp, "Other reasons (" ++ toString (remainingExcluded inp) ++ ")"⟩]
        else [])
    ++ funnelNodesFrom (funnelStartNodeId inp) funnelBreakdown

/-- Sum of the values of the links leaving node `n`. -/
def outflowAt (links : List SLink) (n : Nat) : Int :=
  ((links.filter (fun l => l.source == n)).map SLink.value).sum

/-- Sum of the values of the links entering node `n`. -/
def inflowAt (links : List SLink) (n : Nat) : Int :=
  ((links.filter (fun l => l.target == n)).map SLink.value).sum

/-- The paper bucket stored for a category (empty when absent). -/
def bucketOf (bs : List (String × List Article)) (c : String) : List Article :=
  (alookup bs c).getD []

/-- `docs/script.js` lines 1420-1426 (inside
`categorizeExcludedPapersFromConsolidatedData`): ensure the bucket exists,
then push the paper only if no paper with the same `article_id` is already
in it. -/
def bucketAdd (bs : List (String × List Article)) (r : String) (p : Article) :
    List (String × List Article) :=
  match alookup bs r with
  | none => aset bs r [p]
  | some l =>
      if l.any (fun q => q.article_id == p.article_id) then bs
      else aset bs r (l ++ [p])

/-- `docs/script.js` lines 1428-1429: the unguarded push used for papers
without explicit criteria. -/
def bucketPushRaw (bs : List (String × List Article)) (r : String) (p : Article) :
    List (String × List Article) :=
  aset bs r (((alookup bs r).getD []) ++ [p])

/-- `docs/script.js` lines 1416-1431: distribute the excluded papers over
`paperBuckets`, one bucket per readable reason, or the
`"No explicit criteria"` bucket when the extractor finds nothing. -/
def paperBuckets (excluded : List Article) : List (String × List Article) :=
  excluded.foldl
    (fun bs p =>
      let criteria := extractExclusionCriteria p
      if criteria.isEmpty then bucketPushRaw bs "No explicit criteria" p
      else criteria.foldl (fun acc c => bucketAdd acc (getReadableExclusionReason c) p) bs)
    []

/-- `docs/script.js` lines 1382-1437,
`categorizeExcludedPapersFromConsolidatedData`: consolidate the overview
breakdown, sort it by count (descending), and attach to every category its
consolidated count together with its paper bucket. -/
def categorizeExcludedPapersFromConsolidatedData
    (breakdown : List (String × Info)) (excluded : List Article) :
    List (String × (Int × List Article)) :=
  let consolidatedData := dropdownConsolidate breakdown
  let sortedEntries :=
    List.insertionSort (fun a b : String × Info => b.2.count ≤ a.2.count) consolidatedData
  let buckets := paperBuckets excluded
  sortedEntries.map (fun e => (e.1, (e.2.count, (alookup buckets e.1).getD [])))

/-- The reproduced-outcome test repeated verbatim at `docs/script.js`
lines 1672-1675 (inside `categorizeFinalExcludedPapers`) and lines
1754-1759 (inside `normalizeExclusionReasonForFinalExcluded`):
case-insensitively, the reason contains `fully reproduced`, or contains
`partially reproduced` together with `above` or with `below`. -/
def reproducedPattern (reason : String) : Bool :=
  let rl := jsToLower reason
  jsIncludes rl "fully reproduced"
    || (jsIncludes rl "partially reproduced" && jsIncludes rl "above")
    || (jsIncludes rl "partially reproduced" && jsIncludes rl "below")

/-- `docs/script.js` lines 1752-1791,
`normalizeExclusionReasonForFinalExcluded`; the JS `null` return (for
reproduced-paper labels, which are filtered out of the excluded list) is
modelled as `none`.  In the rule for "No quantitative evaluation" the JS
`a || b && c` parses as `a || (b && c)`. -/
def normalizeExclusionReasonForFinalExcluded (reason : String) : Option String :=
  if reproducedPattern reason then none
  else if jsIncludes (jsToLower reason) "missing some artifacts"
      || jsIncludes (jsToLower reason) "missing artifacts" then
    some "Missing Some Artifacts (not code, e.g. data, model, etc.)"
  else if jsIncludes (jsToLower reason) "missing code"
      || jsIncludes (jsToLower reason) "no code" then
    some "Missing Code"
  else if jsIncludes (jsToLower reason) "has all artifacts but failed"
      || jsIncludes (jsToLower reason) "all artifacts but failed" then
    some "Has All Artifacts but Failed"
  else if jsIncludes (jsToLower reason) "not attempted"
      && jsIncludes (jsToLower reason) "off topic" then
    some "Not Attempted - Off Topic"
  else if jsIncludes (jsToLower reason) "not attempted"
      && jsIncludes (jsToLower reason) "background" then
    some "Not Attempted - Background Article"
  else if jsIncludes (jsToLower reason) "not attempted"
      && jsIncludes (jsToLower reason) "no fulltext" then
    some "Not Attempted - No Fulltext"
  else if jsIncludes (jsToLower reason) "not attempted"
      && jsIncludes (jsToLower reason) "not a research" then
    some "Not Attempted - Not a Research Article"
  else if jsIncludes (jsToLower reason) "no quantitative evaluation"
      || (jsIncludes (jsToLower reason) "quantitative evaluation"
          && jsIncludes (jsToLower reason) "no") then
    some "No quantitative evaluation"
  else if jsIncludes (jsToLower reason) "off topic"
      || jsIncludes (jsToLower reason) "not neuro-symbolic" then
    some "Not Attempted - Off Topic"
  else if jsIncludes (jsToLower reason) "background"
      || jsIncludes (jsToLower reason) "review" then
    some "Not Attempted - Background Article"
  else if jsIncludes (jsToLower reason) "no fulltext"
      || jsIncludes (jsToLower reason) "no full text" then
    some "Not Attempted - No Fulltext"
  else if jsIncludes (jsToLower reason) "not research"
      || jsIncludes (jsToLower reason) "not a research" then
    some "Not Attempted - Not a Research Article"
  else some reason

/-- `docs/script.js` lines 1680-1729 (inside
`categorizeFinalExcludedPapers`): infer the exclusion reason from
`excel_data` when `reproduction_category` is absent.  The JS sets the
default `'Missing Some Artifacts (not code, e.g. data, model, etc.)'`
before the else-if chain, which is equivalent to the final `else` here. -/
def inferFinalReason (paper : Article) : String :=
  let excel := paper.excel_data.getD []
  let isOffTopicLower := jsToLower ((alookup excel "Does the paper discuss Neuro-Symbolic AI").getD "")
  let isBackgroundLower := jsToLower ((alookup excel "The paper is Not a Review").getD "")
  let isResearchLower := jsToLower ((alookup excel "Does the paper present an original research study?").getD "")
  let hasFulltextLower := jsToLower ((alookup excel "Is the Full Text available for the paper?").getD "")
  let reproStatusLower := jsToLower ((alookup excel "Were the results reproduced? (did the results obtained match (from full to partial) the reported results from the paper)").getD "")
  let isReproducibleLower := jsToLower ((alookup excel "Is the study reproducible (is the codebase AND data AND model artifacts required to reproduce publicly available)? ").getD "")
  let hasCodebaseLower := jsToLower ((alookup excel "The paper has an associated codebase").getD "")
  let hasQuantEvalLower := jsToLower ((alookup excel "Does the paper include a Quantitative Evaluation").getD "")
  if hasQuantEvalLower = "no" || hasQuantEvalLower = "n"
      || hasQuantEvalLower = "false" || hasQuantEvalLower = "0" then
    "No quantitative evaluation"
  else if isOffTopicLower = "no" then "Not Attempted - Off Topic"
  else if isBackgroundLower = "no" then "Not Attempted - Background Article"
  else if isResearchLower = "no" then "Not Attempted - Not a Research Article"
  else if hasFulltextLower = "no" then "Not Attempted - No Fulltext"
  else if hasCodebaseLower = "no" then "Missing Code"
  else if jsIncludes reproStatusLower "partial" && jsIncludes reproStatusLower "below" then
    "Partially Reproduced (Below Threshold)"
  else if jsIncludes reproStatusLower "partial" && jsIncludes reproStatusLower "above" then
    "Partially Reproduced (Above Threshold)"
  else if isReproducibleLower = "yes"
      && (reproStatusLower = "no" || jsIncludes reproStatusLower "failed") then
    "Has All Artifacts but Failed"
  else if isReproducibleLower = "no" && hasCodebaseLower = "yes" then
    "Missing Some Artifacts (not code, e.g. data, model, etc.)"
  else if reproStatusLower = "no" || jsIncludes reproStatusLower "not reproduced" then
    "Missing Some Artifacts (not code, e.g. data, model, etc.)"
  else "Missing Some Artifacts (not code, e.g. data, model, etc.)"

/-- `docs/script.js` lines 1662-1738: the category (if any) that
`categorizeFinalExcludedPapers` files a paper under: use
`reproduction_category` when truthy (skipping reproduced papers), else the
`excel_data` inference; then normalize, where `none` means the paper is
skipped. -/
def finalReasonFor (paper : Article) : Option String :=
  if optTruthy paper.reproduction_category then
    let reason := paper.reproduction_category.getD ""
    if reproducedPattern reason then none
    else normalizeExclusionReasonForFinalExcluded reason
  else
    normalizeExclusionReasonForFinalExcluded (inferFinalReason paper)

/-- `docs/script.js` lines 1740-1744: push the paper onto its category list
(creating the category on first use). -/
def finalCategoriesStep (cs : List (String × List Article)) (paper : Article) :
    List (String × List Article) :=
  match finalReasonFor paper with
  | none => cs
  | some reason => aset cs reason (((alookup cs reason).getD []) ++ [paper])

/-- `docs/script.js` lines 1646-1750, `categorizeFinalExcludedPapers`:
bucket the final-excluded papers by normalized reason and sort the
categories by bucket size (descending). -/
def categorizeFinalExcludedPapers (excluded : List Article) :
    List (String × List Article) :=
  List.insertionSort (fun a b : String × List Article => b.2.length ≤ a.2.length)
    (excluded.foldl finalCategoriesStep [])

/-- Modelled from the spec: the aggregator itself (`exclusion_analyzer.py`)
is not under `src/` — only its README (`src/README_exclusion_analyzer.md`)
is — so, per spec section 4.3, a record's canonical categories are its
extracted raw criteria, normalized and de-duplicated per record. -/
def recordCanonicalCategories (a : Article) : List String :=
  ((extractExclusionCriteria a).map getReadableExclusionReason).dedup

/-- The `single/multi/no`-criterion partition counters of the Aggregation
Result (spec section 3 and `src/README_exclusion_analyzer.md`). -/
structure SplitCounts where
  single_criterion_count : Nat
  multi_criterion_count : Nat
  no_criterion_count : Nat
  deriving DecidableEq

/-- Modelled from the spec (section 4.3, `exclusion_analyzer.py` not under
`src/`): classify every record by how many canonical categories it has —
0 → no-criterion, 1 → single-criterion, 2 or more → multi-criterion. -/
def aggregateSplitCounts (records : List Article) : SplitCounts :=
  records.foldl
    (fun acc r =>
      let n := (recordCanonicalCategories r).length
      if n = 0 then { acc with no_criterion_count := acc.no_criterion_count + 1 }
      else if n = 1 then { acc with single_criterion_count := acc.single_criterion_count + 1 }
      else { acc with multi_criterion_count := acc.multi_criterion_count + 1 })
    ⟨0, 0, 0⟩

/-- A row of a sheet of `cluster_papers_with_links.json`
(column name → value). -/
abbrev Row := List (String × String)

/-- The JS regex test `/^(N\/A|None|null|nan)$/i` used by
`enrichPapersWithClusterLinks`. -/
def isNaLike (s : String) : Bool :=
  jsToLower s == "n/a" || jsToLower s == "none" || jsToLower s == "null" || jsToLower s == "nan"

/-- `docs/script.js` lines 150/223: split `other_links` on commas and
newlines, trim, and drop empty or `N/A` fragments. -/
def splitLinks (s : String) : List String :=
  ((jsSplit s (fun ch => ch = ',' || ch = '\n')).map jsTrim).filter
    (fun l => !(l == "") && !(l == "N/A"))

/-- `docs/script.js` lines 152-155: links routed to the repository logic
instead of the DOI logic. -/
def skipRepoLink (link : String) : Bool :=
  jsIncludes link "github.com" || jsIncludes link "gitlab" || jsIncludes link "bitbucket"

/-- `docs/script.js` lines 158-164: the paper-URL/DOI test applied to an
`other_links` fragment. -/
def isPaperLink (link : String) : Bool :=
  jsStartsWith link "http"
    && (jsIncludes link "doi.org" || jsIncludes link "arxiv.org"
        || jsIncludes link "acm.org" || jsIncludes link "ieee.org"
        || jsIncludes link "semanticscholar.org" || jsIncludes link "openreview.net"
        || jsIncludes link "researchgate.net" || jsIncludes link "ceur-ws.org"
        || jsIncludes link ".pdf" || jsIncludes link "pubmed"
        || (!(jsIncludes link "github") && !(jsIncludes link "gitlab") && jsIncludes link "."))

/-- `docs/script.js` lines 146-171: the first `other_links` fragment that
is a paper URL (GitHub/GitLab/Bitbucket fragments are skipped). -/
def otherLinksDoi (row : Row) : Option String :=
  if optTruthy (alookup row "other_links") && !((alookup row "other_links").getD "" == "N/A") then
    let linksStr := jsTrim ((alookup row "other_links").getD "")
    if !(linksStr == "") && !(isNaLike linksStr) && linksStr.length > 3 then
      (splitLinks linksStr).find? (fun link => !(skipRepoLink link) && isPaperLink link)
    else none
  else none

/-- `docs/script.js` lines 176-181: the column-name patterns probed for a
DOI/URL column, in order. -/
def doiUrlPatterns : List (String → Bool) :=
  [fun k => jsIncludes (jsToLower k) "doi" && jsIncludes (jsToLower k) "url",
   fun k => jsIncludes (jsToLower k) "doi",
   fun k => jsIncludes (jsToLower k) "url" && !(jsIncludes (jsToLower k) "repository")
      && !(jsIncludes (jsToLower k) "github"),
   fun k => jsIncludes (jsToLower k) "link" && !(jsIncludes (jsToLower k) "repository")]

/-- `docs/script.js` line 189: the value test of the DOI fallback probe. -/
def doiValCheck (vs : String) : Bool :=
  !(vs == "") && !(isNaLike vs) && vs.length > 3

/-- `docs/script.js` lines 183-199 / 247-267: for each pattern in order,
the first column (in row order) whose name matches the pattern and whose
trimmed truthy value passes the check. -/
def findValByPatterns (row : Row) (chk : String → Bool) :
    List (String → Bool) → Option String
  | [] => none
  | p :: ps =>
      match row.find? (fun kv => p kv.1 && !(kv.2 == "") && chk (jsTrim kv.2)) with
      | some kv => some (jsTrim kv.2)
      | none => findValByPatterns row chk ps

/-- `docs/script.js` lines 253-256: the value test of the repository
fallback probe. -/
def repoValCheck (vs : String) : Bool :=
  !(vs == "") && !(isNaLike vs)
    && (jsStartsWith vs "http" || jsIncludes vs "github" || jsIncludes vs "gitlab"
        || jsIncludes vs "bitbucket" || (jsIncludes vs "." && vs.length > 5))

/-- `docs/script.js` lines 239-245: the column-name patterns probed for a
repository column, in order. -/
def repoPatterns : List (String → Bool) :=
  [fun k => jsIncludes (jsToLower k) "github",
   fun k => jsIncludes (jsToLower k) "repository",
   fun k => jsIncludes (jsToLower k) "repo" && !(jsIncludes (jsToLower k) "doi"),
   fun k => jsIncludes (jsToLower k) "code" && jsIncludes (jsToLower k) "url",
   fun k => jsIncludes (jsToLower k) "gitlab"]

/-- `docs/script.js` lines 206-217: the `codebase` column, accepted when it
looks like a repository URL. -/
def codebaseRepo (row : Row) : Option String :=
  if optTruthy (alookup row "codebase") && !((alookup row "codebase").getD "" == "N/A") then
    let codebaseStr := jsTrim ((alookup row "codebase").getD "")
    if !(codebaseStr == "") && !(isNaLike codebaseStr) then
      if jsStartsWith codebaseStr "http" || jsIncludes codebaseStr "github"
          || jsIncludes codebaseStr "gitlab" || jsIncludes codebaseStr "bitbucket" then
        some codebaseStr
      else none
    else none
  else none

/-- `docs/script.js` lines 220-235: the first `other_links` fragment that
is a GitHub/GitLab/Bitbucket URL. -/
def otherLinksRepo (row : Row) : Option String :=
  if optTruthy (alookup row "other_links") && !((alookup row "other_links").getD "" == "N/A") then
    let linksStr := jsTrim ((alookup row "other_links").getD "")
    if !(linksStr == "") && !(isNaLike linksStr) then
      (splitLinks linksStr).find? (fun link =>
        jsIncludes link "github.com" || jsIncludes link "gitlab.com"
          || jsIncludes link "bitbucket.org" || jsIncludes link "gitlab")
    else none
  else none

/-- Lookup into a paper's optional `excel_data`
(`enriched.excel_data?.[key]`). -/
def excelGet (e : Article) (k : String) : Option String :=
  e.excel_data.bind (fun m => alookup m k)

/-- `docs/script.js` lines 165-167 / 190-192: create `excel_data` if
missing, set its `'Paper DOI / URL'` entry, and set `url`. -/
def setPaperDoi (e : Article) (link : String) : Article :=
  { e with
    excel_data := some (aset (e.excel_data.getD []) "Paper DOI / URL" link),
    url := some link }

/-- `docs/script.js` lines 212-214 / 228-230 / 257-259: create `excel_data`
if missing, set its `'Repository URL'` entry, and set `repository_url`. -/
def setPaperRepo (e : Article) (link : String) : Article :=
  { e with
    excel_data := some (aset (e.excel_data.getD []) "Repository URL" link),
    repository_url := some link }

/-- `docs/script.js` lines 146-172: the `other_links` DOI probe — set the
link fields from the first paper URL found there, if any. -/
def applyDoiOther (e : Article) (row : Row) : Article :=
  match otherLinksDoi row with
  | some link => setPaperDoi e link
  | none => e

/-- `docs/script.js` lines 174-200: the column-pattern DOI fallback, run
only while `url` is still falsy. -/
def applyDoiPatterns (e1 : Article) (row : Row) : Article :=
  if !(optTruthy e1.url) then
    match findValByPatterns row doiValCheck doiUrlPatterns with
    | some valStr => setPaperDoi e1 valStr
    | none => e1
  else e1

/-- `docs/script.js` lines 144-201: the DOI/URL backfill applied to a
matched row — guarded on both `url` and `excel_data['Paper DOI / URL']`
being falsy, trying `other_links` first and the column patterns second. -/
def applyDoiBackfill (e : Article) (row : Row) : Article :=
  if !(optTruthy e.url) && !(optTruthy (excelGet e "Paper DOI / URL")) then
    applyDoiPatterns (applyDoiOther e row) row
  else e

/-- `docs/script.js` lines 206-217: the `codebase`-column repository probe. -/
def applyRepoCodebase (e : Article) (row : Row) : Article :=
  match codebaseRepo row with
  | some s => setPaperRepo e s
  | none => e

/-- `docs/script.js` lines 219-235: the `other_links` repository probe, run
only while `repository_url` is still falsy. -/
def applyRepoOther (e1 : Article) (row : Row) : Article :=
  if !(optTruthy e1.repository_url) then
    match otherLinksRepo row with
    | some link => setPaperRepo e1 link
    | none => e1
  else e1

/-- `docs/script.js` lines 237-268: the column-pattern repository fallback,
run only while `repository_url` is still falsy. -/
def applyRepoPatterns (e2 : Article) (row : Row) : Article :=
  if !(optTruthy e2.repository_url) then
    match findValByPatterns row repoValCheck repoPatterns with
    | some urlStr => setPaperRepo e2 urlStr
    | none => e2
  else e2

/-- `docs/script.js` lines 203-269: the repository backfill applied to a
matched row — guarded on both `repository_url` and
`excel_data['Repository URL']` being falsy, trying the `codebase` column,
then `other_links`, then the column patterns. -/
def applyRepoBackfill (e : Article) (row : Row) : Article :=
  if !(optTruthy e.repository_url) && !(optTruthy (excelGet e "Repository URL")) then
    applyRepoPatterns (applyRepoOther (applyRepoCodebase e row) row) row
  else e

/-- `docs/script.js` lines 105-109 / 124-127: normalize an id cell by
stripping a case-insensitive `rayyan-` prefix and trimming. -/
def normalizeRayyanVal (valStr : String) : String :=
  if jsStartsWith (jsToLower valStr) "rayyan-" then jsTrim (jsDrop valStr 7) else jsTrim valStr

/-- `docs/script.js` lines 112-117: the id-column name patterns of the
fallback probe. -/
def idPatternAny (k : String) : Bool :=
  (jsIncludes (jsToLower k) "rayyan" && jsIncludes (jsToLower k) "id")
    || (jsIncludes (jsToLower k) "paper" && jsIncludes (jsToLower k) "id")
    || (jsToLower k == "id") || (jsToLower k == "paper id")

/-- `docs/script.js` lines 101-134: the Rayyan id of a row — `paper_id`
when truthy, else the first non-empty normalized value of a column whose
name matches an id pattern (`""` plays the role of the JS `null`). -/
def rowRayyanId (row : Row) : String :=
  if optTruthy (alookup row "paper_id") then
    normalizeRayyanVal (jsTrim ((alookup row "paper_id").getD ""))
  else
    row.foldl
      (fun st kv =>
        if !(st == "") then st
        else if idPatternAny kv.1 && !(kv.2 == "") then normalizeRayyanVal (jsTrim kv.2)
        else st)
      ""

/-- `docs/script.js` lines 83-93: the Rayyan id of a paper, from
`article_id` (`""` plays the role of the JS `null`). -/
def paperRayyanId (paper : Article) : String :=
  let paperId := paper.article_id
  if jsStartsWith (jsToLower paperId) "rayyan-" then jsTrim (jsDrop paperId 7)
  else if !(paperId == "") then jsTrim paperId
  else ""

/-- `docs/script.js` lines 140-273: both backfills applied on an id match. -/
def enrichWithRow (e : Article) (row : Row) : Article :=
  applyRepoBackfill (applyDoiBackfill e row) row

/-- `docs/script.js` lines 81-278: enrich one paper — for each sheet (the
per-row loop breaks at the first id match, the sheet loop does not), apply
the backfills to the first matching row. -/
def enrichOne (sheets : List (List Row)) (paper : Article) : Article :=
  let rayyanId := paperRayyanId paper
  if rayyanId == "" then paper
  else
    sheets.foldl
      (fun e sheet =>
        match sheet.find? (fun row =>
            !(rowRayyanId row == "") && rowRayyanId row == jsTrim rayyanId) with
        | some row => enrichWithRow e row
        | none => e)
      paper

/-- `docs/script.js` lines 77-279, `enrichPapersWithClusterLinks`: when the
cluster-links dataset is absent the paper list is returned as-is, otherwise
every paper is enriched independently.  Sheet names are irrelevant to the
logic, so the dataset is the list of its sheets (non-array sheet values,
skipped by the source, are not represented). -/
def enrichPapersWithClusterLinks (papers : List Article)
    (clusterLinksData : Option (List (List Row))) : List Article :=
  match clusterLinksData with
  | none => papers
  | some sheets => papers.map (enrichOne sheets)

/-- Everything the DOI backfill may not touch: all fields except `url`, and
all `excel_data` entries except `'Paper DOI / URL'`. -/
def doiFrame (e e2 : Article) : Prop :=
  e2.article_id = e.article_id ∧ e2.title = e.title ∧ e2.author = e.author
    ∧ e2.year = e.year ∧ e2.abstract = e.abstract ∧ e2.note = e.note
    ∧ e2.customizations = e.customizations
    ∧ e2.reproduction_category = e.reproduction_category
    ∧ e2.repository_url = e.repository_url
    ∧ ∀ k, k ≠ "Paper DOI / URL" → excelGet e2 k = excelGet e k

/-- Everything the repository backfill may not touch: all fields except
`repository_url`, and all `excel_data` entries except `'Repository URL'`. -/
def repoFrame (e e2 : Article) : Prop :=
  e2.article_id = e.article_id ∧ e2.title = e.title ∧ e2.author = e.author
    ∧ e2.year = e.year ∧ e2.abstract = e.abstract ∧ e2.note = e.note
    ∧ e2.customizations = e.customizations
    ∧ e2.reproduction_category = e.reproduction_category
    ∧ e2.url = e.url
    ∧ ∀ k, k ≠ "Repository URL" → excelGet e2 k = excelGet e k

/-- Everything enrichment as a whole may not touch: all fields except the
two link fields, and all `excel_data` entries except the two link keys. -/
def otherFrame (e e2 : Article) : Prop :=
  e2.article_id = e.article_id ∧ e2.title = e.title ∧ e2.author = e.author
    ∧ e2.year = e.year ∧ e2.abstract = e.abstract ∧ e2.note = e.note
    ∧ e2.customizations = e.customizations
    ∧ e2.reproduction_category = e.reproduction_category
    ∧ ∀ k, k ≠ "Paper DOI / URL" → k ≠ "Repository URL" → excelGet e2 k = excelGet e k

/-- Concrete record whose annotation key carries the marker without the
wrapping quote produced by the CSV export. -/
def unquotedFlagArticle : Article :=
  { blankArticle with
    article_id := "rayyan-1",
    customizations := [⟨"2024-01-01", "u1", "a@b.c", "__EXR__off-topic", "1"⟩] }

/-- Concrete record with the same criterion flagged by two reviewers. -/
def dupFlagArticle : Article :=
  { blankArticle with
    article_id := "rayyan-9",
    customizations :=
      [⟨"2024-01-01", "u1", "a@b.c", "\x22__EXR__no-codebase\x22", "1"⟩,
       ⟨"2024-01-02", "u2", "d@e.f", "\x22__EXR__no-codebase\x22", "1"⟩] }

/-- Concrete overview totals that violate both consistency side conditions
(`afterDedup ≠ included + excluded` and `included ≠ 516`). -/
def sankeyBadInput : SankeyInput :=
  ⟨100, 60, 10, 40, [("X", ⟨40, 100⟩)]⟩

/-- Concrete overview totals satisfying both consistency side conditions. -/
def sankeyGoodInput : SankeyInput :=
  ⟨600, 556, 516, 40, [("X", ⟨40, 100⟩)]⟩

/-- Concrete input whose remainder bucket is exactly zero. -/
def sankeyZeroRemInput : SankeyInput :=
  ⟨100, 50, 10, 40, [("X", ⟨40, 100⟩)]⟩

/-- Concrete input whose remainder bucket is strictly positive. -/
def sankeyPosRemInput : SankeyInput :=
  ⟨100, 60, 10, 50, [("X", ⟨40, 80⟩)]⟩

/-- Concrete input whose remainder bucket would be negative. -/
def sankeyNegRemInput : SankeyInput :=
  ⟨100, 60, 10, 30, [("X", ⟨40, 100⟩)]⟩

/-- Concrete final-excluded paper with an ordinary exclusion category. -/
def finalPaperA : Article :=
  { blankArticle with
    article_id := "rayyan-21",
    reproduction_category := some "Missing Code" }

/-- Concrete final-excluded paper marked as fully reproduced. -/
def finalPaperB : Article :=
  { blankArticle with
    article_id := "rayyan-22",
    reproduction_category := some "Fully Reproduced" }

/-- Concrete raw breakdown whose percentages sum to 100. -/
def sampleBreakdown : List (String × Info) :=
  [("Survey/review paper", ⟨30, 40⟩), ("Review paper", ⟨15, 20⟩), ("__EXR__zzz", ⟨30, 40⟩)]

/-- Concrete paper whose link fields are already populated. -/
def linkedPaper : Article :=
  { blankArticle with
    article_id := "rayyan-7",
    url := some "https://doi.org/10.1/abc",
    repository_url := some "https://github.com/good/repo",
    excel_data := some [("Other", "kept")] }

/-- Concrete cluster-links sheet whose row matches `linkedPaper` and offers
links that must not overwrite the populated fields. -/
def linkedSheets : List (List Row) :=
  [[[("paper_id", "rayyan-7"),
     ("codebase", "https://github.com/evil/repo"),
     ("other_links", "https://doi.org/10.9/evil")]]]

/-- Concrete one-category breakdown whose percentages sum to 100. -/
def unitBreakdown : List (String × Info) :=
  [("Survey/review paper", ⟨30, 100⟩)]


lemma foldl_ifPush {α β : Type} (p : α → Bool) (f : α → β) (l : List α) (acc : List β) :
    l.foldl (fun cs c => if p c then cs ++ [f c] else cs) acc
      = acc ++ (l.filter p).map f := by
  induction l generalizing acc with
  | nil => simp
  | cons c t ih =>
      by_cases h : p c
      · simp [h, ih]
      · simp [h, ih]

/-- C1 counterexample: on a record whose annotation key bears the marker
but no wrapping quote, the extractor as implemented yields nothing, while
the claim (quote-strip first, then test the marker, then add the code
without the marker) yields the code `off-topic`; the two also disagree on
what is added (the implementation keeps the `__EXR__` marker). -/
theorem extract_unquoted_key_counterexample :
    extractExclusionCriteria unquotedFlagArticle = []
    ∧ specExtractExclusionCriteria unquotedFlagArticle = ["off-topic"]
    ∧ extractExclusionCriteria dupFlagArticle ≠ specExtractExclusionCriteria dupFlagArticle := by
  decide

/-- C1 (amended): the extractor adds, per qualifying entry, the
quote-stripped key — which retains the `__EXR__` marker — exactly when the
raw key starts with a double quote immediately followed by the marker and
the value is the string `"1"`; every other entry contributes nothing. -/
theorem extract_exclusion_criteria_characterization (a : Article) :
    extractExclusionCriteria a
      = (a.customizations.filter
          (fun c => jsStartsWith c.key "\x22__EXR__" && c.value == "1")).map
          (fun c => stripQuoteChars c.key) := by
  have h :=
    foldl_ifPush (fun c : Customization => jsStartsWith c.key "\x22__EXR__" && c.value == "1")
      (fun c : Customization => stripQuoteChars c.key) a.customizations []
  rw [List.nil_append] at h
  exact h

/-- C6 counterexample: the normalizer's lookup table has no entry for the
legacy label `Other/Unclear` (in either spelling), so it passes through
unchanged instead of mapping to `No codebase/implementation` as the claim
states. -/
theorem other_unclear_not_in_reason_map :
    getReadableExclusionReason "Other/Unclear" = "Other/Unclear"
    ∧ getReadableExclusionReason "__EXR__Other/Unclear" = "__EXR__Other/Unclear"
    ∧ "Other/Unclear" ≠ "No codebase/implementation"
    ∧ "__EXR__Other/Unclear" ≠ "No codebase/implementation" := by
  decide

/-- C6 (amended): the normalizer maps every tabulated code (all carrying
the `__EXR__` marker) to its canonical category — in particular the legacy
codes `c`, `wrong outcome`, `engl`, `v` to `No codebase/implementation` —
and every code not in the table, `Other/Unclear` included, passes through
unchanged; `Other/Unclear` is folded into `No codebase/implementation`
only by the separate view-level consolidation step. -/
theorem readable_exclusion_reason_table :
    (getReadableExclusionReason "__EXR__off-topic" = "Off-topic/Not neuro-symbolic"
     ∧ getReadableExclusionReason "__EXR__no-codebase" = "No codebase/implementation"
     ∧ getReadableExclusionReason "__EXR__survey" = "review/background article"
     ∧ getReadableExclusionReason "__EXR__background article" = "review/background article"
     ∧ getReadableExclusionReason "__EXR__review" = "review/background article"
     ∧ getReadableExclusionReason "__EXR__not-research" = "Not research paper"
     ∧ getReadableExclusionReason "__EXR__no-eval" = "No evaluation"
     ∧ getReadableExclusionReason "__EXR__duplicate" = "Duplicate"
     ∧ getReadableExclusionReason "__EXR__no-fulltext" = "no-fulltext"
     ∧ getReadableExclusionReason "__EXR__not-in-english" = "not-in-english"
     ∧ getReadableExclusionReason "__EXR__foreign language" = "not-in-english"
     ∧ getReadableExclusionReason "__EXR__c" = "No codebase/implementation"
     ∧ getReadableExclusionReason "__EXR__wrong outcome" = "No codebase/implementation"
     ∧ getReadableExclusionReason "__EXR__engl" = "No codebase/implementation"
     ∧ getReadableExclusionReason "__EXR__v" = "No codebase/implementation"
     ∧ overviewConsolidateReason "Other/Unclear" = "No codebase/implementation")
    ∧ ∀ c, alookup reasonMap c = none → getReadableExclusionReason c = c := by
  constructor
  · decide
  · intro c h
    simp [getReadableExclusionReason, h]

/-- C6 witness: an unknown future code is not in the table and passes
through unchanged. -/
theorem readable_exclusion_reason_table_witness :
    alookup reasonMap "__EXR__quantum" = none
    ∧ getReadableExclusionReason "__EXR__quantum" = "__EXR__quantum" :=
  ⟨by decide, readable_exclusion_reason_table.2 "__EXR__quantum" (by decide)⟩

lemma splitCounts_sum_foldl (rs : List Article) :
    ∀ acc : SplitCounts,
      ((rs.foldl
        (fun acc r =>
          let n := (recordCanonicalCategories r).length
          if n = 0 then { acc with no_criterion_count := acc.no_criterion_count + 1 }
          else if n = 1 then { acc with single_criterion_count := acc.single_criterion_count + 1 }
          else { acc with multi_criterion_count := acc.multi_criterion_count + 1 }) acc)).single_criterion_count
        + ((rs.foldl
        (fun acc r =>
          let n := (recordCanonicalCategories r).length
          if n = 0 then { acc with no_criterion_count := acc.no_criterion_count + 1 }
          else if n = 1 then { acc with single_criterion_count := acc.single_criterion_count + 1 }
          else { acc with multi_criterion_count := acc.multi_criterion_count + 1 }) acc)).multi_criterion_count
        + ((rs.foldl
        (fun acc r =>
          let n := (recordCanonicalCategories r).length
          if n = 0 then { acc with no_criterion_count := acc.no_criterion_count + 1 }
          else if n = 1 then { acc with single_criterion_count := acc.single_criterion_count + 1 }
          else { acc with multi_criterion_count := acc.multi_criterion_count + 1 }) acc)).no_criterion_count
      = acc.single_criterion_count + acc.multi_criterion_count + acc.no_criterion_count + rs.length := by
  induction rs with
  | nil => intro acc; simp
  | cons r t ih =>
      intro acc
      simp only [List.foldl_cons]
      by_cases h0 : (recordCanonicalCategories r).length = 0
      · rw [ih]; simp [h0]; omega
      · by_cases h1 : (recordCanonicalCategories r).length = 1
        · rw [ih]; simp [h0, h1]; omega
        · rw [ih]; simp [h0, h1]; omega

/-- C9: the single/multi/no-criterion counters always partition the record
set — their sum equals the total record count — and on the published
analysis 1493 + 216 + 142 = 1851 indeed holds. -/
theorem split_counts_partition (records : List Article) :
    (aggregateSplitCounts records).single_criterion_count
      + (aggregateSplitCounts records).multi_criterion_count
      + (aggregateSplitCounts records).no_criterion_count = records.length
    ∧ 1493 + 216 + 142 = 1851 := by
  refine ⟨?_, by decide⟩
  have h := splitCounts_sum_foldl records ⟨0, 0, 0⟩
  simpa [aggregateSplitCounts] using h

/-- C7 counterexample: two reviewer entries setting the same flag make the
extractor return the code twice — its result is not duplicate-free. -/
theorem extract_duplicate_flags_counterexample :
    extractExclusionCriteria dupFlagArticle
      = ["__EXR__no-codebase", "__EXR__no-codebase"] := by decide

lemma alookup_aset {β : Type} (m : List (String × β)) (k : String) (v : β) (c : String) :
    alookup (aset m k v) c = if k = c then some v else alookup m c := by
  induction m with
  | nil => by_cases h : k = c <;> simp [aset, alookup, h]
  | cons kv t ih =>
      obtain ⟨k0, v0⟩ := kv
      by_cases h0 : k0 = k
      · subst h0
        by_cases h : k0 = c <;> simp [aset, alookup, h]
      · by_cases h : k0 = c
        · subst h
          have hk : ¬ k = k0 := fun hh => h0 hh.symm
          simp [aset, alookup, h0, hk]
        · simp [aset, alookup, h0, h, ih]

lemma bucketOf_aset (bs : List (String × List Article)) (k : String)
    (v : List Article) (c : String) :
    bucketOf (aset bs k v) c = if k = c then v else bucketOf bs c := by
  unfold bucketOf
  rw [alookup_aset]
  by_cases h : k = c <;> simp [h]

lemma bucketAdd_mem (bs : List (String × List Article)) (r : String) (p : Article)
    (c : String) (q : Article) (hq : q ∈ bucketOf (bucketAdd bs r p) c) :
    q ∈ bucketOf bs c ∨ q = p := by
  unfold bucketAdd at hq
  split at hq
  · rw [bucketOf_aset] at hq
    by_cases h : r = c
    · rw [if_pos h] at hq
      simp at hq
      exact Or.inr hq
    · rw [if_neg h] at hq
      exact Or.inl hq
  · rename_i l hal
    split at hq
    · exact Or.inl hq
    · rename_i hany
      rw [bucketOf_aset] at hq
      by_cases h : r = c
      · rw [if_pos h] at hq
        rcases List.mem_append.mp hq with hl | hp
        · subst h
          left
          unfold bucketOf
          rw [hal]
          simpa using hl
        · exact Or.inr (by simpa using hp)
      · rw [if_neg h] at hq
        exact Or.inl hq

lemma bucketAdd_nodup (bs : List (String × List Article)) (r : String) (p : Article)
    (hnd : ∀ c, ((bucketOf bs c).map Article.article_id).Nodup) (c : String) :
    ((bucketOf (bucketAdd bs r p) c).map Article.article_id).Nodup := by
  unfold bucketAdd
  split
  · rw [bucketOf_aset]
    by_cases h : r = c
    · rw [if_pos h]; simp
    · rw [if_neg h]; exact hnd c
  · rename_i l hal
    split
    · exact hnd c
    · rename_i hany
      rw [bucketOf_aset]
      by_cases h : r = c
      · rw [if_pos h]
        have hl : ((bucketOf bs r).map Article.article_id).Nodup := hnd r
        have hbl : bucketOf bs r = l := by unfold bucketOf; rw [hal]; rfl
        rw [hbl] at hl
        have hnp : p.article_id ∉ l.map Article.article_id := by
          intro hmem
          rcases List.mem_map.mp hmem with ⟨q, hq, hid⟩
          have hq2 : l.any (fun q => q.article_id == p.article_id) := by
            refine List.any_eq_true.mpr ⟨q, hq, ?_⟩
            simp [hid]
          exact hany hq2
        simp only [List.map_append, List.map_cons, List.map_nil]
        rw [List.nodup_append]
        refine ⟨hl, List.nodup_singleton _, ?_⟩
        intro a ha hb
        simp at hb
        subst hb
        exact hnp ha
      · rw [if_neg h]; exact hnd c

lemma bucketFold_mem (p : Article) (crits : List String) :
    ∀ (bs : List (String × List Article)) (c : String) (q : Article),
      q ∈ bucketOf (crits.foldl
        (fun acc cr => bucketAdd acc (getReadableExclusionReason cr) p) bs) c →
      q ∈ bucketOf bs c ∨ q = p := by
  induction crits with
  | nil => intro bs c q hq; exact Or.inl (by simpa using hq)
  | cons cr t ih =>
      intro bs c q hq
      simp only [List.foldl_cons] at hq
      rcases ih (bucketAdd bs (getReadableExclusionReason cr) p) c q hq with h1 | h2
      · exact bucketAdd_mem bs (getReadableExclusionReason cr) p c q h1
      · exact Or.inr h2

lemma bucketFold_nodup (p : Article) (crits : List String) :
    ∀ (bs : List (String × List Article)),
      (∀ c, ((bucketOf bs c).map Article.article_id).Nodup) →
      ∀ c, ((bucketOf (crits.foldl
        (fun acc cr => bucketAdd acc (getReadableExclusionReason cr) p) bs) c).map
          Article.article_id).Nodup := by
  induction crits with
  | nil => intro bs hnd c; simpa using hnd c
  | cons cr t ih =>
      intro bs hnd c
      simp only [List.foldl_cons]
      exact ih (bucketAdd bs (getReadableExclusionReason cr) p)
        (fun c => bucketAdd_nodup bs (getReadableExclusionReason cr) p hnd c) c

lemma bucketOf_pushRaw (bs : List (String × List Article)) (r : String) (p : Article)
    (c : String) :
    bucketOf (bucketPushRaw bs r p) c
      = if r = c then bucketOf bs r ++ [p] else bucketOf bs c := by
  unfold bucketPushRaw
  rw [bucketOf_aset]
  rfl

lemma paperBuckets_fold_inv (ps : List Article) :
    ∀ (bs : List (String × List Article)) (seen : List String),
      (∀ c q, q ∈ bucketOf bs c → q.article_id ∈ seen) →
      (∀ c, ((bucketOf bs c).map Article.article_id).Nodup) →
      (seen ++ ps.map Article.article_id).Nodup →
      ∀ c, ((bucketOf (ps.foldl
          (fun bs p =>
            if (extractExclusionCriteria p).isEmpty then
              bucketPushRaw bs "No explicit criteria" p
            else (extractExclusionCriteria p).foldl
              (fun acc c => bucketAdd acc (getReadableExclusionReason c) p) bs)
          bs) c).map Article.article_id).Nodup := by
  induction ps with
  | nil => intro bs seen hmem hnd _ c; simpa using hnd c
  | cons p t ih =>
      intro bs seen hmem hnd hseen c
      simp only [List.foldl_cons]
      have hpn : p.article_id ∉ seen := by
        have h2 := hseen
        rw [List.map_cons, List.nodup_append] at h2
        exact fun hin => h2.2.2 hin (by simp)
      have hseen2 : ((seen ++ [p.article_id]) ++ t.map Article.article_id).Nodup := by
        have heq : seen ++ (p :: t).map Article.article_id
            = (seen ++ [p.article_id]) ++ t.map Article.article_id := by simp
        rw [heq] at hseen
        exact hseen
      by_cases hemp : (extractExclusionCriteria p).isEmpty
      · rw [if_pos hemp]
        refine ih (bucketPushRaw bs "No explicit criteria" p) (seen ++ [p.article_id])
          ?_ ?_ hseen2 c
        · intro c0 q hq
          rw [bucketOf_pushRaw] at hq
          by_cases h : "No explicit criteria" = c0
          · rw [if_pos h] at hq
            rcases List.mem_append.mp hq with hold | hp
            · exact List.mem_append.mpr (Or.inl (hmem _ q hold))
            · simp at hp
              subst hp
              simp
          · rw [if_neg h] at hq
            exact List.mem_append.mpr (Or.inl (hmem c0 q hq))
        · intro c0
          rw [bucketOf_pushRaw]
          by_cases h : "No explicit criteria" = c0
          · rw [if_pos h]
            simp only [List.map_append, List.map_cons, List.map_nil]
            rw [List.nodup_append]
            refine ⟨hnd _, List.nodup_singleton _, ?_⟩
            intro a ha hb
            simp at hb
            subst hb
            rcases List.mem_map.mp ha with ⟨q, hq, hid⟩
            exact hpn (hid ▸ hmem _ q hq)
          · rw [if_neg h]
            exact hnd c0
      · rw [if_neg hemp]
        refine ih _ (seen ++ [p.article_id]) ?_ ?_ hseen2 c
        · intro c0 q hq
          rcases bucketFold_mem p (extractExclusionCriteria p) bs c0 q hq with hold | hp
          · exact List.mem_append.mpr (Or.inl (hmem c0 q hold))
          · subst hp
            simp
        · intro c0
          exact bucketFold_nodup p (extractExclusionCriteria p) bs hnd c0

/-- C7 (amended): the extractor itself returns one entry per annotation
that sets a flag (duplicates preserved), and de-duplication happens in the
category bucketing instead: for a record set with pairwise-distinct
article ids, no paper bucket of
`categorizeExcludedPapersFromConsolidatedData` lists the same article
twice, so flag presence is OR-combined at the category level. -/
theorem paper_buckets_no_duplicate_ids (ps : List Article)
    (h : (ps.map Article.article_id).Nodup) (c : String) :
    ((bucketOf (paperBuckets ps) c).map Article.article_id).Nodup := by
  have hinv := paperBuckets_fold_inv ps [] []
    (by intro c0 q hq; simp [bucketOf, alookup] at hq)
    (by intro c0; simp [bucketOf, alookup])
    (by simpa using h) c
  simpa [paperBuckets] using hinv

/-- C7 witness: the double-flagged article, alone, lands exactly once in
the `No codebase/implementation` bucket, which is duplicate-free. -/
theorem paper_buckets_no_duplicate_ids_witness :
    ([dupFlagArticle].map Article.article_id).Nodup
    ∧ bucketOf (paperBuckets [dupFlagArticle]) "No codebase/implementation" = [dupFlagArticle]
    ∧ ((bucketOf (paperBuckets [dupFlagArticle]) "No codebase/implementation").map
        Article.article_id).Nodup :=
  ⟨by decide, by decide,
   paper_buckets_no_duplicate_ids [dupFlagArticle] (by decide) "No codebase/implementation"⟩

lemma countAt_upsert (acc : List (String × Info)) (k : String) (cv : Int) (pv : Rat)
    (c : String) :
    countAt (upsertInfo acc k cv pv) c
      = if k = c then countAt acc c + cv else countAt acc c := by
  induction acc with
  | nil => by_cases h : k = c <;> simp [upsertInfo, countAt, alookup, h]
  | cons kv t ih =>
      obtain ⟨k0, i0⟩ := kv
      by_cases h0 : k0 = k
      · subst h0
        by_cases h : k0 = c <;> simp [upsertInfo, countAt, alookup, h]
      · by_cases h : k0 = c
        · subst h
          have hk : ¬ k = k0 := fun hh => h0 hh.symm
          simp [upsertInfo, countAt, alookup, h0, hk]
        · simp only [upsertInfo, if_neg h0]
          simp only [countAt, alookup, if_neg h]
          exact ih

lemma pctAt_upsert (acc : List (String × Info)) (k : String) (cv : Int) (pv : Rat)
    (c : String) :
    pctAt (upsertInfo acc k cv pv) c
      = if k = c then pctAt acc c + pv else pctAt acc c := by
  induction acc with
  | nil => by_cases h : k = c <;> simp [upsertInfo, pctAt, alookup, h]
  | cons kv t ih =>
      obtain ⟨k0, i0⟩ := kv
      by_cases h0 : k0 = k
      · subst h0
        by_cases h : k0 = c <;> simp [upsertInfo, pctAt, alookup, h]
      · by_cases h : k0 = c
        · subst h
          have hk : ¬ k = k0 := fun hh => h0 hh.symm
          simp [upsertInfo, pctAt, alookup, h0, hk]
        · simp only [upsertInfo, if_neg h0]
          simp only [pctAt, alookup, if_neg h]
          exact ih

lemma countTotal_upsert (acc : List (String × Info)) (k : String) (cv : Int) (pv : Rat) :
    countTotal (upsertInfo acc k cv pv) = countTotal acc + cv := by
  induction acc with
  | nil => simp [upsertInfo, countTotal]
  | cons kv t ih =>
      obtain ⟨k0, i0⟩ := kv
      by_cases h0 : k0 = k
      · subst h0
        simp [upsertInfo, countTotal]
        ring
      · simp only [upsertInfo, if_neg h0]
        simp only [countTotal, List.map_cons, List.sum_cons] at ih ⊢
        rw [ih]
        ring

lemma pctTotal_upsert (acc : List (String × Info)) (k : String) (cv : Int) (pv : Rat) :
    pctTotal (upsertInfo acc k cv pv) = pctTotal acc + pv := by
  induction acc with
  | nil => simp [upsertInfo, pctTotal]
  | cons kv t ih =>
      obtain ⟨k0, i0⟩ := kv
      by_cases h0 : k0 = k
      · subst h0
        simp [upsertInfo, pctTotal]
        ring
      · simp only [upsertInfo, if_neg h0]
        simp only [pctTotal, List.map_cons, List.sum_cons] at ih ⊢
        rw [ih]
        ring

lemma countAt_consolidate_fold (bd : List (String × Info)) :
    ∀ (acc : List (String × Info)) (c : String),
      countAt (bd.foldl
          (fun acc e => upsertInfo acc (overviewConsolidateReason e.1) e.2.count e.2.percentage)
          acc) c
        = countAt acc c
            + ((bd.filter (fun e => overviewConsolidateReason e.1 == c)).map
                (fun e => e.2.count)).sum := by
  induction bd with
  | nil => intro acc c; simp
  | cons e t ih =>
      intro acc c
      simp only [List.foldl_cons]
      rw [ih, countAt_upsert]
      by_cases h : overviewConsolidateReason e.1 = c
      · have hb : (overviewConsolidateReason e.1 == c) = true := by simp [h]
        simp only [List.filter_cons, hb, if_true, List.map_cons, List.sum_cons, if_pos h]
        ring
      · have hb : (overviewConsolidateReason e.1 == c) = false := by simp [h]
        simp only [List.filter_cons, hb, Bool.false_eq_true, if_false, if_neg h]

lemma pctAt_consolidate_fold (bd : List (String × Info)) :
    ∀ (acc : List (String × Info)) (c : String),
      pctAt (bd.foldl
          (fun acc e => upsertInfo acc (overviewConsolidateReason e.1) e.2.count e.2.percentage)
          acc) c
        = pctAt acc c
            + ((bd.filter (fun e => overviewConsolidateReason e.1 == c)).map
                (fun e => e.2.percentage)).sum := by
  induction bd with
  | nil => intro acc c; simp
  | cons e t ih =>
      intro acc c
      simp only [List.foldl_cons]
      rw [ih, pctAt_upsert]
      by_cases h : overviewConsolidateReason e.1 = c
      · have hb : (overviewConsolidateReason e.1 == c) = true := by simp [h]
        simp only [List.filter_cons, hb, if_true, List.map_cons, List.sum_cons, if_pos h]
        ring
      · have hb : (overviewConsolidateReason e.1 == c) = false := by simp [h]
        simp only [List.filter_cons, hb, Bool.false_eq_true, if_false, if_neg h]

lemma countTotal_consolidate_fold (bd : List (String × Info)) :
    ∀ acc : List (String × Info),
      countTotal (bd.foldl
          (fun acc e => upsertInfo acc (overviewConsolidateReason e.1) e.2.count e.2.percentage)
          acc)
        = countTotal acc + countTotal bd := by
  induction bd with
  | nil => intro acc; simp [countTotal]
  | cons e t ih =>
      intro acc
      simp only [List.foldl_cons]
      rw [ih, countTotal_upsert]
      simp only [countTotal, List.map_cons, List.sum_cons]
      ring

lemma pctTotal_consolidate_fold (bd : List (String × Info)) :
    ∀ acc : List (String × Info),
      pctTotal (bd.foldl
          (fun acc e => upsertInfo acc (overviewConsolidateReason e.1) e.2.count e.2.percentage)
          acc)
        = pctTotal acc + pctTotal bd := by
  induction bd with
  | nil => intro acc; simp [pctTotal]
  | cons e t ih =>
      intro acc
      simp only [List.foldl_cons]
      rw [ih, pctTotal_upsert]
      simp only [pctTotal, List.map_cons, List.sum_cons]
      ring

/-- C8: consolidation is additive in both fields — for every breakdown and
category, the consolidated count (resp. percentage) is the sum of its
constituents' counts (resp. percentages); hence the consolidated totals
equal the raw totals, and raw percentages summing to 100 force the
consolidated percentages to sum to 100. -/
theorem consolidation_additive (bd : List (String × Info)) (c : String) :
    countAt (overviewConsolidate bd) c
        = ((bd.filter (fun e => overviewConsolidateReason e.1 == c)).map
            (fun e => e.2.count)).sum
    ∧ pctAt (overviewConsolidate bd) c
        = ((bd.filter (fun e => overviewConsolidateReason e.1 == c)).map
            (fun e => e.2.percentage)).sum
    ∧ countTotal (overviewConsolidate bd) = countTotal bd
    ∧ pctTotal (overviewConsolidate bd) = pctTotal bd
    ∧ (pctTotal bd = 100 → pctTotal (overviewConsolidate bd) = 100) := by
  have h1 := countAt_consolidate_fold bd [] c
  have h2 := pctAt_consolidate_fold bd [] c
  have h3 := countTotal_consolidate_fold bd []
  have h4 := pctTotal_consolidate_fold bd []
  have hz1 : countAt ([] : List (String × Info)) c = 0 := rfl
  have hz2 : pctAt ([] : List (String × Info)) c = 0 := rfl
  have hz3 : countTotal ([] : List (String × Info)) = 0 := rfl
  have hz4 : pctTotal ([] : List (String × Info)) = 0 := rfl
  rw [hz1, zero_add] at h1
  rw [hz2, zero_add] at h2
  rw [hz3, zero_add] at h3
  rw [hz4, zero_add] at h4
  refine ⟨h1, h2, h3, h4, ?_⟩
  intro h100
  calc pctTotal (overviewConsolidate bd) = pctTotal bd := h4
    _ = 100 := h100

/-- C8 witness: a one-category breakdown whose percentage is 100 keeps a
consolidated percentage total of 100. -/
theorem consolidation_additive_witness :
    pctTotal unitBreakdown = 100
    ∧ pctTotal (overviewConsolidate unitBreakdown) = 100 := by
  have h0 : pctTotal unitBreakdown = 100 := by
    simp [pctTotal, unitBreakdown]
  exact ⟨h0, (consolidation_additive unitBreakdown "review/background article").2.2.2.2 h0⟩

lemma consolidate_defs_agree (bd : List (String × Info)) :
    overviewConsolidate bd = sankeyConsolidate bd
    ∧ overviewConsolidate bd = dropdownConsolidate bd :=
  ⟨rfl, rfl⟩

lemma mem_keys_upsert (acc : List (String × Info)) (k : String) (cv : Int) (pv : Rat)
    (c : String) :
    c ∈ (upsertInfo acc k cv pv).map Prod.fst ↔ c ∈ acc.map Prod.fst ∨ c = k := by
  induction acc with
  | nil => simp [upsertInfo]
  | cons kv t ih =>
      obtain ⟨k0, i0⟩ := kv
      by_cases h0 : k0 = k
      · subst h0
        simp [upsertInfo]
        tauto
      · simp only [upsertInfo, if_neg h0, List.map_cons, List.mem_cons, ih]
        tauto

lemma nodup_keys_upsert (acc : List (String × Info)) (k : String) (cv : Int) (pv : Rat)
    (hnd : (acc.map Prod.fst).Nodup) :
    ((upsertInfo acc k cv pv).map Prod.fst).Nodup := by
  induction acc with
  | nil => simp [upsertInfo]
  | cons kv t ih =>
      obtain ⟨k0, i0⟩ := kv
      simp only [List.map_cons, List.nodup_cons] at hnd
      by_cases h0 : k0 = k
      · subst h0
        have hu : upsertInfo ((k0, i0) :: t) k0 cv pv
            = (k0, ⟨i0.count + cv, i0.percentage + pv⟩) :: t := by
          simp [upsertInfo]
        rw [hu]
        simp only [List.map_cons, List.nodup_cons]
        exact hnd
      · simp only [upsertInfo, if_neg h0, List.map_cons, List.nodup_cons]
        refine ⟨?_, ih hnd.2⟩
        rw [mem_keys_upsert]
        rintro (hin | hk)
        · exact hnd.1 hin
        · exact h0 hk

lemma nodup_keys_consolidate (bd : List (String × Info)) :
    ∀ acc : List (String × Info), (acc.map Prod.fst).Nodup →
      ((bd.foldl
          (fun acc e => upsertInfo acc (overviewConsolidateReason e.1) e.2.count e.2.percentage)
          acc).map Prod.fst).Nodup := by
  induction bd with
  | nil => intro acc h; simpa using h
  | cons e t ih =>
      intro acc h
      simp only [List.foldl_cons]
      exact ih _ (nodup_keys_upsert acc _ _ _ h)

lemma mem_of_alookup_some {β : Type} (l : List (String × β)) (c : String) (v : β)
    (h : alookup l c = some v) : (c, v) ∈ l := by
  induction l with
  | nil => simp [alookup] at h
  | cons kv t ih =>
      obtain ⟨k0, v0⟩ := kv
      by_cases h0 : k0 = c
      · subst h0
        simp [alookup] at h
        subst h
        simp
      · simp only [alookup, if_neg h0] at h
        exact List.mem_cons.mpr (Or.inr (ih h))

lemma alookup_eq_some_of_mem {β : Type} (l : List (String × β)) (c : String) (v : β)
    (hnd : (l.map Prod.fst).Nodup) (hm : (c, v) ∈ l) : alookup l c = some v := by
  induction l with
  | nil => simp at hm
  | cons kv t ih =>
      obtain ⟨k0, v0⟩ := kv
      simp only [List.map_cons, List.nodup_cons] at hnd
      rcases List.mem_cons.mp hm with hh | ht
      · obtain ⟨h1, h2⟩ := Prod.mk.injEq .. ▸ hh
        injection hh with hfst hsnd
        simp [alookup, hfst.symm, hsnd]
      · have hk0 : k0 ≠ c := by
          intro he
          subst he
          exact hnd.1 (List.mem_map.mpr ⟨(k0, v), ht, rfl⟩)
        simp only [alookup, if_neg hk0]
        exact ih hnd.2 ht

lemma alookup_none_iff {β : Type} (l : List (String × β)) (c : String) :
    alookup l c = none ↔ c ∉ l.map Prod.fst := by
  induction l with
  | nil => simp [alookup]
  | cons kv t ih =>
      obtain ⟨k0, v0⟩ := kv
      by_cases h0 : k0 = c
      · subst h0
        simp [alookup]
      · simp only [alookup, if_neg h0, List.map_cons, List.mem_cons, ih]
        constructor
        · rintro hn (hc | hm)
          · exact h0 hc.symm
          · exact hn hm
        · intro hn hm
          exact hn (Or.inr hm)

lemma alookup_perm {β : Type} (l₁ l₂ : List (String × β)) (h : l₁.Perm l₂)
    (hnd : (l₁.map Prod.fst).Nodup) (c : String) :
    alookup l₁ c = alookup l₂ c := by
  have hnd₂ : (l₂.map Prod.fst).Nodup := ((h.map Prod.fst).nodup_iff).mp hnd
  cases h1 : alookup l₁ c with
  | none =>
      have hc : c ∉ l₁.map Prod.fst := (alookup_none_iff l₁ c).mp h1
      have hc₂ : c ∉ l₂.map Prod.fst := fun hin =>
        hc ((h.map Prod.fst).mem_iff.mpr hin)
      exact ((alookup_none_iff l₂ c).mpr hc₂).symm
  | some v =>
      have hm : (c, v) ∈ l₁ := mem_of_alookup_some l₁ c v h1
      exact (alookup_eq_some_of_mem l₂ c v hnd₂ (h.mem_iff.mp hm)).symm

lemma alookup_map_pair {β γ : Type} (l : List (String × β)) (f : String → β → γ)
    (c : String) :
    alookup (l.map (fun e => (e.1, f e.1 e.2))) c = (alookup l c).map (f c) := by
  induction l with
  | nil => simp [alookup]
  | cons kv t ih =>
      obtain ⟨k0, v0⟩ := kv
      by_cases h0 : k0 = c
      · subst h0
        simp [alookup]
      · simp only [List.map_cons, alookup, if_neg h0]
        exact ih

/-- C3: the three presentation views agree — the consolidated lookup of the
table/pie-chart builder equals that of the Sankey builder, and the count
the dropdown builder attaches to a category equals the table's consolidated
count for it (both directions: present with the same count, or absent in
both). -/
theorem cross_view_counts_agree (bd : List (String × Info)) (ps : List Article)
    (c : String) :
    alookup (overviewConsolidate bd) c = alookup (sankeyConsolidate bd) c
    ∧ ((alookup (categorizeExcludedPapersFromConsolidatedData bd ps) c).map Prod.fst)
        = ((alookup (overviewConsolidate bd) c).map Info.count) := by
  constructor
  · rfl
  · have hnd : ((dropdownConsolidate bd).map Prod.fst).Nodup := by
      have h := nodup_keys_consolidate bd [] (by simp)
      exact h
    have hperm :
        (dropdownConsolidate bd).Perm
          (List.insertionSort (fun a b : String × Info => b.2.count ≤ a.2.count)
            (dropdownConsolidate bd)) :=
      (List.perm_insertionSort _ _).symm
    have hsort := alookup_perm _ _ hperm hnd c
    unfold categorizeExcludedPapersFromConsolidatedData
    rw [alookup_map_pair
      (List.insertionSort (fun a b : String × Info => b.2.count ≤ a.2.count)
        (dropdownConsolidate bd))
      (fun k i => (i.count, (alookup (paperBuckets ps) k).getD []))]
    rw [← hsort]
    have hod : overviewConsolidate bd = dropdownConsolidate bd := rfl
    rw [hod]
    cases alookup (dropdownConsolidate bd) c <;> rfl

lemma topLinksFrom_value_sum (es : List (String × Info)) :
    ∀ nid, ((topLinksFrom nid es).map SLink.value).sum = (es.map (fun e => e.2.count)).sum := by
  induction es with
  | nil => intro nid; simp [topLinksFrom]
  | cons e t ih => intro nid; simp [topLinksFrom, ih]

lemma topLinksFrom_filter_src (es : List (String × Info)) (n : Nat) (h : n ≠ 2) :
    ∀ nid, ((topLinksFrom nid es).filter (fun l => l.source == n)) = [] := by
  induction es with
  | nil => intro nid; simp [topLinksFrom]
  | cons e t ih =>
      intro nid
      have hb : ((2 : Nat) == n) = false := by
        rw [beq_eq_false_iff_ne]
        exact fun hh => h hh.symm
      simp [topLinksFrom, List.filter_cons, hb, ih]

lemma topLinksFrom_filter_src2 (es : List (String × Info)) :
    ∀ nid, ((topLinksFrom nid es).filter (fun l => l.source == 2)) = topLinksFrom nid es := by
  induction es with
  | nil => intro nid; simp [topLinksFrom]
  | cons e t ih => intro nid; simp [topLinksFrom, List.filter_cons, ih]

lemma topLinksFrom_filter_tgt (es : List (String × Info)) (n : Nat) :
    ∀ nid, n < nid → ((topLinksFrom nid es).filter (fun l => l.target == n)) = [] := by
  induction es with
  | nil => intro nid _; simp [topLinksFrom]
  | cons e t ih =>
      intro nid hlt
      have hb : (nid == n) = false := by
        rw [beq_eq_false_iff_ne]
        omega
      have ht := ih (nid + 1) (by omega)
      simp [topLinksFrom, List.filter_cons, hb, ht]

lemma funnelLinksFrom_value_sum (es : List (String × Int)) :
    ∀ nid, ((funnelLinksFrom nid es).map SLink.value).sum = (es.map Prod.snd).sum := by
  induction es with
  | nil => intro nid; simp [funnelLinksFrom]
  | cons e t ih => intro nid; simp [funnelLinksFrom, ih]

lemma funnelLinksFrom_filter_src (es : List (String × Int)) (n : Nat) (h : n ≠ 3) :
    ∀ nid, ((funnelLinksFrom nid es).filter (fun l => l.source == n)) = [] := by
  induction es with
  | nil => intro nid; simp [funnelLinksFrom]
  | cons e t ih =>
      intro nid
      have hb : ((3 : Nat) == n) = false := by
        rw [beq_eq_false_iff_ne]
        exact fun hh => h hh.symm
      simp [funnelLinksFrom, List.filter_cons, hb, ih]

lemma funnelLinksFrom_filter_src3 (es : List (String × Int)) :
    ∀ nid, ((funnelLinksFrom nid es).filter (fun l => l.source == 3)) = funnelLinksFrom nid es := by
  induction es with
  | nil => intro nid; simp [funnelLinksFrom]
  | cons e t ih => intro nid; simp [funnelLinksFrom, List.filter_cons, ih]

lemma funnelLinksFrom_filter_tgt (es : List (String × Int)) (n : Nat) :
    ∀ nid, n < nid → ((funnelLinksFrom nid es).filter (fun l => l.target == n)) = [] := by
  induction es with
  | nil => intro nid _; simp [funnelLinksFrom]
  | cons e t ih =>
      intro nid hlt
      have hb : (nid == n) = false := by
        rw [beq_eq_false_iff_ne]
        omega
      have ht := ih (nid + 1) (by omega)
      simp [funnelLinksFrom, List.filter_cons, hb, ht]

lemma otherNodeId_ge (inp : SankeyInput) : 4 ≤ otherNodeId inp :=
  Nat.le_add_right 4 _

lemma funnelStartNodeId_ge (inp : SankeyInput) : 4 ≤ funnelStartNodeId inp :=
  Nat.le_trans (otherNodeId_ge inp) (Nat.le_add_right _ _)

lemma sankey_flows (inp : SankeyInput) :
    outflowAt (sankeyLinks inp) 0 = duplicatesRemoved inp + inp.afterDedup
    ∧ inflowAt (sankeyLinks inp) 2 = inp.afterDedup
    ∧ outflowAt (sankeyLinks inp) 2
        = inp.included + accountedFor inp
            + (if 0 < remainingExcluded inp then remainingExcluded inp else 0)
    ∧ inflowAt (sankeyLinks inp) 3 = inp.included
    ∧ outflowAt (sankeyLinks inp) 3 = 516 := by
  have h4o := otherNodeId_ge inp
  have h4f := funnelStartNodeId_ge inp
  have ho2 : (otherNodeId inp == 2) = false := by rw [beq_eq_false_iff_ne]; omega
  have ho3 : (otherNodeId inp == 3) = false := by rw [beq_eq_false_iff_ne]; omega
  have hfun : ((funnelBreakdown.map Prod.snd).sum : Int) = 516 := by decide
  refine ⟨?_, ?_, ?_, ?_, ?_⟩
  · by_cases hrem : 0 < remainingExcluded inp <;>
      simp [outflowAt, sankeyLinks, hrem, List.filter_append,
        topLinksFrom_filter_src _ 0 (by omega),
        funnelLinksFrom_filter_src _ 0 (by omega), List.filter_cons]
  · by_cases hrem : 0 < remainingExcluded inp <;>
      simp [inflowAt, sankeyLinks, hrem, List.filter_append,
        topLinksFrom_filter_tgt _ 2 4 (by omega),
        funnelLinksFrom_filter_tgt _ 2 (funnelStartNodeId inp) (by omega),
        ho2, List.filter_cons]
  · by_cases hrem : 0 < remainingExcluded inp
    · simp [outflowAt, sankeyLinks, hrem, List.filter_append,
        topLinksFrom_filter_src2, topLinksFrom_value_sum,
        funnelLinksFrom_filter_src _ 2 (by omega), List.filter_cons, accountedFor]
      ring
    · simp [outflowAt, sankeyLinks, hrem, List.filter_append,
        topLinksFrom_filter_src2, topLinksFrom_value_sum,
        funnelLinksFrom_filter_src _ 2 (by omega), List.filter_cons, accountedFor]
  · by_cases hrem : 0 < remainingExcluded inp <;>
      simp [inflowAt, sankeyLinks, hrem, List.filter_append,
        topLinksFrom_filter_tgt _ 3 4 (by omega),
        funnelLinksFrom_filter_tgt _ 3 (funnelStartNodeId inp) (by omega),
        ho3, List.filter_cons]
  · by_cases hrem : 0 < remainingExcluded inp <;>
      simp [outflowAt, sankeyLinks, hrem, List.filter_append,
        topLinksFrom_filter_src _ 3 (by omega),
        funnelLinksFrom_filter_src3, funnelLinksFrom_value_sum, List.filter_cons, hfun]

/-- C4 counterexample: on overview totals with `afterDedup ≠ included +
excluded` and `included ≠ 516`, the diagram the code builds violates
conservation at the after-dedup node (incoming 60, outgoing 50) and at the
in-scope node (incoming 10, outgoing 516 — the hardcoded funnel total):
the code never enforces the claimed equalities. -/
theorem sankey_conservation_counterexample :
    inflowAt (sankeyLinks sankeyBadInput) 2 = 60
    ∧ outflowAt (sankeyLinks sankeyBadInput) 2 = 50
    ∧ inflowAt (sankeyLinks sankeyBadInput) 3 = 10
    ∧ outflowAt (sankeyLinks sankeyBadInput) 3 = 516
    ∧ (60 : Int) ≠ 50 ∧ (10 : Int) ≠ 516 := by
  decide

/-- C4 (amended): the code never enforces conservation; it holds at the
total-hits node always (the duplicates link is computed as the
difference), and whenever the input satisfies the data-consistency side
conditions `afterDedup = included + excluded`, displayed-category sum at
most the excluded total, and `included = 516` (the hardcoded funnel
total), it also holds at the after-dedup node and at the in-scope node.
The conditions are sufficient, not necessary. -/
theorem sankey_conservation (inp : SankeyInput)
    (h1 : inp.afterDedup = inp.included + inp.excluded)
    (h2 : accountedFor inp ≤ inp.excluded)
    (h3 : inp.included = 516) :
    outflowAt (sankeyLinks inp) 0 = inp.totalHits
    ∧ outflowAt (sankeyLinks inp) 2 = inflowAt (sankeyLinks inp) 2
    ∧ outflowAt (sankeyLinks inp) 3 = inflowAt (sankeyLinks inp) 3 := by
  obtain ⟨f0, f2i, f2o, f3i, f3o⟩ := sankey_flows inp
  have hdup : duplicatesRemoved inp = inp.totalHits - inp.afterDedup := rfl
  have hrem : remainingExcluded inp = inp.excluded - accountedFor inp := rfl
  refine ⟨?_, ?_, ?_⟩
  · rw [f0]
    omega
  · rw [f2o, f2i]
    by_cases hpos : 0 < remainingExcluded inp
    · rw [if_pos hpos]
      omega
    · rw [if_neg hpos]
      omega
  · rw [f3o, f3i, h3]

/-- C4 witness: consistent totals (600 hits, 556 after dedup, 516 in scope,
40 excluded all displayed) satisfy conservation at every split node. -/
theorem sankey_conservation_witness :
    (sankeyGoodInput.afterDedup = sankeyGoodInput.included + sankeyGoodInput.excluded
     ∧ accountedFor sankeyGoodInput ≤ sankeyGoodInput.excluded
     ∧ sankeyGoodInput.included = 516)
    ∧ (outflowAt (sankeyLinks sankeyGoodInput) 0 = sankeyGoodInput.totalHits
       ∧ outflowAt (sankeyLinks sankeyGoodInput) 2 = inflowAt (sankeyLinks sankeyGoodInput) 2
       ∧ outflowAt (sankeyLinks sankeyGoodInput) 3 = inflowAt (sankeyLinks sankeyGoodInput) 3) :=
  ⟨⟨by decide, by decide, by decide⟩,
   sankey_conservation sankeyGoodInput (by decide) (by decide) (by decide)⟩

/-- C5 counterexample: on an input whose remainder is zero (non-negative),
no "Other reasons" node or zero-valued link out of the after-dedup node is
emitted at all, so no node "carries exactly that remainder value" — the
builder emits the bucket only for a strictly positive remainder. -/
theorem other_reasons_zero_counterexample :
    remainingExcluded sankeyZeroRemInput = 0
    ∧ ((sankeyLinks sankeyZeroRemInput).filter
        (fun l => l.source == 2 && l.value == 0)) = []
    ∧ ((sankeyNodes sankeyZeroRemInput).filter
        (fun n => jsIncludes n.name "Other reasons")) = [] := by
  decide

/-- C5 (amended): the "Other reasons" node and its link, carrying exactly
the remainder, are emitted iff the remainder is strictly positive; when the
remainder is zero or negative the bucket is silently omitted — the
outflow of the after-dedup node then carries no remainder summand, no
negative node is emitted, and the builder raises no diagnostic (its output
has no integrity-error channel at all). -/
theorem other_reasons_remainder (inp : SankeyInput) :
    (0 < remainingExcluded inp →
      SLink.mk 2 (otherNodeId inp) (remainingExcluded inp) ∈ sankeyLinks inp
      ∧ SNode.mk (otherNodeId inp)
          ("Other reasons (" ++ toString (remainingExcluded inp) ++ ")") ∈ sankeyNodes inp
      ∧ outflowAt (sankeyLinks inp) 2
          = inp.included + accountedFor inp + remainingExcluded inp)
    ∧ (remainingExcluded inp ≤ 0 →
      outflowAt (sankeyLinks inp) 2 = inp.included + accountedFor inp) := by
  obtain ⟨_, _, f2o, _, _⟩ := sankey_flows inp
  constructor
  · intro hpos
    refine ⟨?_, ?_, ?_⟩
    · simp [sankeyLinks, hpos]
    · simp [sankeyNodes, hpos]
    · rw [f2o, if_pos hpos]
  · intro hle
    have hn : ¬ 0 < remainingExcluded inp := by omega
    rw [f2o, if_neg hn]
    simp

/-- C5 witness: a strictly positive remainder (10) yields the
"Other reasons" link with value exactly 10, and a negative remainder (-10)
yields an outflow with no remainder summand. -/
theorem other_reasons_remainder_witness :
    (0 < remainingExcluded sankeyPosRemInput
     ∧ SLink.mk 2 (otherNodeId sankeyPosRemInput) (remainingExcluded sankeyPosRemInput)
         ∈ sankeyLinks sankeyPosRemInput
     ∧ outflowAt (sankeyLinks sankeyPosRemInput) 2
         = sankeyPosRemInput.included + accountedFor sankeyPosRemInput
             + remainingExcluded sankeyPosRemInput)
    ∧ (remainingExcluded sankeyNegRemInput ≤ 0
       ∧ outflowAt (sankeyLinks sankeyNegRemInput) 2
           = sankeyNegRemInput.included + accountedFor sankeyNegRemInput) := by
  constructor
  · have h := (other_reasons_remainder sankeyPosRemInput).1 (by decide)
    exact ⟨by decide, h.1, h.2.2⟩
  · exact ⟨by decide, (other_reasons_remainder sankeyNegRemInput).2 (by decide)⟩

lemma normalize_final_not_reproduced (x r : String)
    (h : normalizeExclusionReasonForFinalExcluded x = some r) :
    reproducedPattern r = false := by
  unfold normalizeExclusionReasonForFinalExcluded at h
  by_cases h1 : reproducedPattern x
  · rw [if_pos h1] at h
    exact Option.noConfusion h
  · rw [if_neg h1] at h
    by_cases hc2 : jsIncludes (jsToLower x) "missing some artifacts" || jsIncludes (jsToLower x) "missing artifacts"
    · rw [if_pos hc2] at h
      injection h with he
      subst he
      decide
    · rw [if_neg hc2] at h
      by_cases hc3 : jsIncludes (jsToLower x) "missing code" || jsIncludes (jsToLower x) "no code"
      · rw [if_pos hc3] at h
        injection h with he
        subst he
        decide
      · rw [if_neg hc3] at h
        by_cases hc4 : jsIncludes (jsToLower x) "has all artifacts but failed" || jsIncludes (jsToLower x) "all artifacts but failed"
        · rw [if_pos hc4] at h
          injection h with he
          subst he
          decide
        · rw [if_neg hc4] at h
          by_cases hc5 : jsIncludes (jsToLower x) "not attempted" && jsIncludes (jsToLower x) "off topic"
          · rw [if_pos hc5] at h
            injection h with he
            subst he
            decide
          · rw [if_neg hc5] at h
            by_cases hc6 : jsIncludes (jsToLower x) "not attempted" && jsIncludes (jsToLower x) "background"
            · rw [if_pos hc6] at h
              injection h with he
              subst he
              decide
            · rw [if_neg hc6] at h
              by_cases hc7 : jsIncludes (jsToLower x) "not attempted" && jsIncludes (jsToLower x) "no fulltext"
              · rw [if_pos hc7] at h
                injection h with he
                subst he
                decide
              · rw [if_neg hc7] at h
                by_cases hc8 : jsIncludes (jsToLower x) "not attempted" && jsIncludes (jsToLower x) "not a research"
                · rw [if_pos hc8] at h
                  injection h with he
                  subst he
                  decide
                · rw [if_neg hc8] at h
                  by_cases hc9 : jsIncludes (jsToLower x) "no quantitative evaluation" || (jsIncludes (jsToLower x) "quantitative evaluation" && jsIncludes (jsToLower x) "no")
                  · rw [if_pos hc9] at h
                    injection h with he
                    subst he
                    decide
                  · rw [if_neg hc9] at h
                    by_cases hc10 : jsIncludes (jsToLower x) "off topic" || jsIncludes (jsToLower x) "not neuro-symbolic"
                    · rw [if_pos hc10] at h
                      injection h with he
                      subst he
                      decide
                    · rw [if_neg hc10] at h
                      by_cases hc11 : jsIncludes (jsToLower x) "background" || jsIncludes (jsToLower x) "review"
                      · rw [if_pos hc11] at h
                        injection h with he
                        subst he
                        decide
                      · rw [if_neg hc11] at h
                        by_cases hc12 : jsIncludes (jsToLower x) "no fulltext" || jsIncludes (jsToLower x) "no full text"
                        · rw [if_pos hc12] at h
                          injection h with he
                          subst he
                          decide
                        · rw [if_neg hc12] at h
                          by_cases hc13 : jsIncludes (jsToLower x) "not research" || jsIncludes (jsToLower x) "not a research"
                          · rw [if_pos hc13] at h
                            injection h with he
                            subst he
                            decide
                          · rw [if_neg hc13] at h
                            injection h with he
                            subst he
                            simpa using h1

lemma finalReasonFor_not_reproduced (p : Article) (r : String)
    (h : finalReasonFor p = some r) : reproducedPattern r = false := by
  unfold finalReasonFor at h
  by_cases htr : optTruthy p.reproduction_category
  · rw [if_pos htr] at h
    change (if reproducedPattern (p.reproduction_category.getD "") then none
        else normalizeExclusionReasonForFinalExcluded (p.reproduction_category.getD ""))
        = some r at h
    by_cases hrep : reproducedPattern (p.reproduction_category.getD "")
    · rw [if_pos hrep] at h
      exact Option.noConfusion h
    · rw [if_neg hrep] at h
      exact normalize_final_not_reproduced _ r h
  · rw [if_neg htr] at h
    exact normalize_final_not_reproduced _ r h

lemma mem_aset_pair {β : Type} (m : List (String × β)) (k : String) (w : β)
    (c : String) (v : β) (h : (c, v) ∈ aset m k w) : (c, v) ∈ m ∨ c = k := by
  induction m with
  | nil =>
      simp [aset] at h
      exact Or.inr h.1
  | cons kv t ih =>
      obtain ⟨k0, v0⟩ := kv
      by_cases h0 : k0 = k
      · subst h0
        simp only [aset, if_pos rfl] at h
        rcases List.mem_cons.mp h with hh | ht
        · injection hh with hf hs
          exact Or.inr hf
        · exact Or.inl (List.mem_cons.mpr (Or.inr ht))
      · simp only [aset, if_neg h0] at h
        rcases List.mem_cons.mp h with hh | ht
        · exact Or.inl (List.mem_cons.mpr (Or.inl hh))
        · rcases ih ht with hm | hk
          · exact Or.inl (List.mem_cons.mpr (Or.inr hm))
          · exact Or.inr hk

lemma mem_finalCategories_fold (ps : List Article) :
    ∀ (cs : List (String × List Article)) (c : String) (v : List Article),
      (c, v) ∈ ps.foldl finalCategoriesStep cs →
      (∃ w, (c, w) ∈ cs) ∨ ∃ p, finalReasonFor p = some c := by
  induction ps with
  | nil => intro cs c v h; exact Or.inl ⟨v, by simpa using h⟩
  | cons p t ih =>
      intro cs c v h
      simp only [List.foldl_cons] at h
      rcases ih (finalCategoriesStep cs p) c v h with ⟨w, hw⟩ | hex
      · unfold finalCategoriesStep at hw
        cases hfr : finalReasonFor p with
        | none =>
            rw [hfr] at hw
            exact Or.inl ⟨w, hw⟩
        | some r =>
            rw [hfr] at hw
            rcases mem_aset_pair _ _ _ _ _ hw with hm | hk
            · exact Or.inl ⟨w, hm⟩
            · subst hk
              exact Or.inr ⟨p, hfr⟩
      · exact Or.inr hex

/-- C2: no reproduced-paper label ever appears as a category of the
final-excluded breakdown — whether a paper's outcome comes from
`reproduction_category` or is inferred from `excel_data`, papers whose
outcome matches the reproduced patterns are skipped, so every emitted
category differs from "Fully Reproduced" and "Partially Reproduced
(Above/Below Threshold)". -/
theorem final_excluded_no_reproduced (excluded : List Article) (c : String)
    (h : (alookup (categorizeFinalExcludedPapers excluded) c).isSome = true) :
    c ≠ "Fully Reproduced"
    ∧ c ≠ "Partially Reproduced (Above Threshold)"
    ∧ c ≠ "Partially Reproduced (Below Threshold)" := by
  obtain ⟨v, hv⟩ : ∃ v, alookup (categorizeFinalExcludedPapers excluded) c = some v := by
    cases heq : alookup (categorizeFinalExcludedPapers excluded) c with
    | none => rw [heq] at h; simp at h
    | some v => exact ⟨v, rfl⟩
  have hmem : (c, v) ∈ categorizeFinalExcludedPapers excluded :=
    mem_of_alookup_some _ c v hv
  have hmem2 : (c, v) ∈ excluded.foldl finalCategoriesStep [] := by
    unfold categorizeFinalExcludedPapers at hmem
    exact (List.perm_insertionSort _ _).mem_iff.mp hmem
  rcases mem_finalCategories_fold excluded [] c v hmem2 with ⟨w, hw⟩ | ⟨p, hp⟩
  · simp at hw
  · have hpat : reproducedPattern c = false := finalReasonFor_not_reproduced p c hp
    refine ⟨?_, ?_, ?_⟩
    · rintro rfl
      have htrue : reproducedPattern "Fully Reproduced" = true := by decide
      rw [hpat] at htrue
      exact Bool.noConfusion htrue
    · rintro rfl
      have htrue : reproducedPattern "Partially Reproduced (Above Threshold)" = true := by
        decide
      rw [hpat] at htrue
      exact Bool.noConfusion htrue
    · rintro rfl
      have htrue : reproducedPattern "Partially Reproduced (Below Threshold)" = true := by
        decide
      rw [hpat] at htrue
      exact Bool.noConfusion htrue

/-- C2 witness: with one ordinary and one fully-reproduced paper, the
`Missing Code` category is present and is none of the reproduced labels
(the reproduced paper itself is skipped). -/
theorem final_excluded_no_reproduced_witness :
    (alookup (categorizeFinalExcludedPapers [finalPaperA, finalPaperB]) "Missing Code").isSome
        = true
    ∧ ("Missing Code" ≠ "Fully Reproduced"
       ∧ "Missing Code" ≠ "Partially Reproduced (Above Threshold)"
       ∧ "Missing Code" ≠ "Partially Reproduced (Below Threshold)") :=
  ⟨by decide,
   final_excluded_no_reproduced [finalPaperA, finalPaperB] "Missing Code" (by decide)⟩

lemma excelGet_getD (e : Article) (k : String) :
    alookup (e.excel_data.getD []) k = excelGet e k := by
  cases h : e.excel_data <;> simp [excelGet, h, alookup]

lemma excelGet_setPaperDoi (e : Article) (link : String) (k : String) :
    excelGet (setPaperDoi e link) k
      = if "Paper DOI / URL" = k then some link else excelGet e k := by
  have h0 : excelGet (setPaperDoi e link) k
      = alookup (aset (e.excel_data.getD []) "Paper DOI / URL" link) k := rfl
  rw [h0, alookup_aset]
  by_cases h : "Paper DOI / URL" = k <;> simp [h, excelGet_getD]

lemma excelGet_setPaperRepo (e : Article) (link : String) (k : String) :
    excelGet (setPaperRepo e link) k
      = if "Repository URL" = k then some link else excelGet e k := by
  have h0 : excelGet (setPaperRepo e link) k
      = alookup (aset (e.excel_data.getD []) "Repository URL" link) k := rfl
  rw [h0, alookup_aset]
  by_cases h : "Repository URL" = k <;> simp [h, excelGet_getD]

lemma doiFrame_refl (e : Article) : doiFrame e e := by
  unfold doiFrame
  repeat' apply And.intro
  all_goals intros
  all_goals rfl

lemma doiFrame_trans (a b c : Article) (h1 : doiFrame a b) (h2 : doiFrame b c) :
    doiFrame a c := by
  obtain ⟨p1, p2, p3, p4, p5, p6, p7, p8, p9, p10⟩ := h1
  obtain ⟨q1, q2, q3, q4, q5, q6, q7, q8, q9, q10⟩ := h2
  refine ⟨q1.trans p1, q2.trans p2, q3.trans p3, q4.trans p4, q5.trans p5,
    q6.trans p6, q7.trans p7, q8.trans p8, q9.trans p9, ?_⟩
  intro k hk
  exact (q10 k hk).trans (p10 k hk)

lemma repoFrame_refl (e : Article) : repoFrame e e := by
  unfold repoFrame
  repeat' apply And.intro
  all_goals intros
  all_goals rfl

lemma repoFrame_trans (a b c : Article) (h1 : repoFrame a b) (h2 : repoFrame b c) :
    repoFrame a c := by
  obtain ⟨p1, p2, p3, p4, p5, p6, p7, p8, p9, p10⟩ := h1
  obtain ⟨q1, q2, q3, q4, q5, q6, q7, q8, q9, q10⟩ := h2
  refine ⟨q1.trans p1, q2.trans p2, q3.trans p3, q4.trans p4, q5.trans p5,
    q6.trans p6, q7.trans p7, q8.trans p8, q9.trans p9, ?_⟩
  intro k hk
  exact (q10 k hk).trans (p10 k hk)

lemma doiFrame_setPaperDoi (e : Article) (link : String) :
    doiFrame e (setPaperDoi e link) := by
  unfold doiFrame
  repeat' apply And.intro
  all_goals intros
  all_goals first
    | rfl
    | (rename_i k hk
       rw [excelGet_setPaperDoi, if_neg (fun hh => hk hh.symm)])

lemma repoFrame_setPaperRepo (e : Article) (link : String) :
    repoFrame e (setPaperRepo e link) := by
  unfold repoFrame
  repeat' apply And.intro
  all_goals intros
  all_goals first
    | rfl
    | (rename_i k hk
       rw [excelGet_setPaperRepo, if_neg (fun hh => hk hh.symm)])

lemma doiFrame_applyDoiOther (e : Article) (row : Row) :
    doiFrame e (applyDoiOther e row) := by
  unfold applyDoiOther
  cases otherLinksDoi row with
  | none => exact doiFrame_refl e
  | some link => exact doiFrame_setPaperDoi e link

lemma doiFrame_applyDoiPatterns (e : Article) (row : Row) :
    doiFrame e (applyDoiPatterns e row) := by
  unfold applyDoiPatterns
  split
  · cases findValByPatterns row doiValCheck doiUrlPatterns with
    | none => exact doiFrame_refl e
    | some valStr => exact doiFrame_setPaperDoi e valStr
  · exact doiFrame_refl e

lemma doiFrame_applyDoiBackfill (e : Article) (row : Row) :
    doiFrame e (applyDoiBackfill e row) := by
  unfold applyDoiBackfill
  split
  · exact doiFrame_trans _ _ _ (doiFrame_applyDoiOther e row)
      (doiFrame_applyDoiPatterns (applyDoiOther e row) row)
  · exact doiFrame_refl e

lemma repoFrame_applyRepoCodebase (e : Article) (row : Row) :
    repoFrame e (applyRepoCodebase e row) := by
  unfold applyRepoCodebase
  cases codebaseRepo row with
  | none => exact repoFrame_refl e
  | some s => exact repoFrame_setPaperRepo e s

lemma repoFrame_applyRepoOther (e : Article) (row : Row) :
    repoFrame e (applyRepoOther e row) := by
  unfold applyRepoOther
  split
  · cases otherLinksRepo row with
    | none => exact repoFrame_refl e
    | some link => exact repoFrame_setPaperRepo e link
  · exact repoFrame_refl e

lemma repoFrame_applyRepoPatterns (e : Article) (row : Row) :
    repoFrame e (applyRepoPatterns e row) := by
  unfold applyRepoPatterns
  split
  · cases findValByPatterns row repoValCheck repoPatterns with
    | none => exact repoFrame_refl e
    | some urlStr => exact repoFrame_setPaperRepo e urlStr
  · exact repoFrame_refl e

lemma repoFrame_applyRepoBackfill (e : Article) (row : Row) :
    repoFrame e (applyRepoBackfill e row) := by
  unfold applyRepoBackfill
  split
  · exact repoFrame_trans _ _ _ (repoFrame_applyRepoCodebase e row)
      (repoFrame_trans _ _ _ (repoFrame_applyRepoOther (applyRepoCodebase e row) row)
        (repoFrame_applyRepoPatterns (applyRepoOther (applyRepoCodebase e row) row) row))
  · exact repoFrame_refl e

lemma applyDoiBackfill_skip (e : Article) (row : Row)
    (h : (optTruthy e.url || optTruthy (excelGet e "Paper DOI / URL")) = true) :
    applyDoiBackfill e row = e := by
  unfold applyDoiBackfill
  have hc : (!(optTruthy e.url) && !(optTruthy (excelGet e "Paper DOI / URL"))) = false := by
    cases hu : optTruthy e.url <;> cases hx : optTruthy (excelGet e "Paper DOI / URL") <;>
      simp_all
  simp [hc]

lemma applyRepoBackfill_skip (e : Article) (row : Row)
    (h : (optTruthy e.repository_url || optTruthy (excelGet e "Repository URL")) = true) :
    applyRepoBackfill e row = e := by
  unfold applyRepoBackfill
  have hc : (!(optTruthy e.repository_url) && !(optTruthy (excelGet e "Repository URL")))
      = false := by
    cases hu : optTruthy e.repository_url <;>
      cases hx : optTruthy (excelGet e "Repository URL") <;> simp_all
  simp [hc]

lemma otherFrame_refl (e : Article) : otherFrame e e := by
  unfold otherFrame
  repeat' apply And.intro
  all_goals intros
  all_goals rfl

lemma otherFrame_trans (a b c : Article) (h1 : otherFrame a b) (h2 : otherFrame b c) :
    otherFrame a c := by
  obtain ⟨p1, p2, p3, p4, p5, p6, p7, p8, p9⟩ := h1
  obtain ⟨q1, q2, q3, q4, q5, q6, q7, q8, q9⟩ := h2
  refine ⟨q1.trans p1, q2.trans p2, q3.trans p3, q4.trans p4, q5.trans p5,
    q6.trans p6, q7.trans p7, q8.trans p8, ?_⟩
  intro k hk1 hk2
  exact (q9 k hk1 hk2).trans (p9 k hk1 hk2)

lemma doiFrame_otherFrame (a b : Article) (h : doiFrame a b) : otherFrame a b := by
  obtain ⟨p1, p2, p3, p4, p5, p6, p7, p8, _, p10⟩ := h
  exact ⟨p1, p2, p3, p4, p5, p6, p7, p8, fun k hk1 _ => p10 k hk1⟩

lemma repoFrame_otherFrame (a b : Article) (h : repoFrame a b) : otherFrame a b := by
  obtain ⟨p1, p2, p3, p4, p5, p6, p7, p8, _, p10⟩ := h
  exact ⟨p1, p2, p3, p4, p5, p6, p7, p8, fun k _ hk2 => p10 k hk2⟩

lemma otherFrame_enrichWithRow (e : Article) (row : Row) :
    otherFrame e (enrichWithRow e row) := by
  unfold enrichWithRow
  exact otherFrame_trans _ _ _
    (doiFrame_otherFrame _ _ (doiFrame_applyDoiBackfill e row))
    (repoFrame_otherFrame _ _ (repoFrame_applyRepoBackfill (applyDoiBackfill e row) row))

lemma otherFrame_enrichFold (rid : String) (sheets : List (List Row)) :
    ∀ e : Article,
      otherFrame e (sheets.foldl
        (fun e sheet =>
          match sheet.find? (fun row =>
              !(rowRayyanId row == "") && rowRayyanId row == jsTrim rid) with
          | some row => enrichWithRow e row
          | none => e) e) := by
  induction sheets with
  | nil => intro e; exact otherFrame_refl e
  | cons sheet t ih =>
      intro e
      simp only [List.foldl_cons]
      cases hf : sheet.find? (fun row =>
          !(rowRayyanId row == "") && rowRayyanId row == jsTrim rid) with
      | none => exact ih e
      | some row =>
          exact otherFrame_trans _ _ _ (otherFrame_enrichWithRow e row)
            (ih (enrichWithRow e row))

lemma url_state_enrichFold (p : Article)
    (hp : (optTruthy p.url || optTruthy (excelGet p "Paper DOI / URL")) = true)
    (rid : String) (sheets : List (List Row)) :
    ∀ e : Article, e.url = p.url →
      excelGet e "Paper DOI / URL" = excelGet p "Paper DOI / URL" →
      (sheets.foldl
        (fun e sheet =>
          match sheet.find? (fun row =>
              !(rowRayyanId row == "") && rowRayyanId row == jsTrim rid) with
          | some row => enrichWithRow e row
          | none => e) e).url = p.url
      ∧ excelGet (sheets.foldl
        (fun e sheet =>
          match sheet.find? (fun row =>
              !(rowRayyanId row == "") && rowRayyanId row == jsTrim rid) with
          | some row => enrichWithRow e row
          | none => e) e) "Paper DOI / URL" = excelGet p "Paper DOI / URL" := by
  induction sheets with
  | nil => intro e h1 h2; exact ⟨h1, h2⟩
  | cons sheet t ih =>
      intro e h1 h2
      simp only [List.foldl_cons]
      cases hf : sheet.find? (fun row =>
          !(rowRayyanId row == "") && rowRayyanId row == jsTrim rid) with
      | none => exact ih e h1 h2
      | some row =>
          have hskip : applyDoiBackfill e row = e := by
            apply applyDoiBackfill_skip
            rw [h1, h2]
            exact hp
          have hrf := repoFrame_applyRepoBackfill e row
          obtain ⟨_, _, _, _, _, _, _, _, hurl, hexc⟩ := hrf
          have hrow : enrichWithRow e row = applyRepoBackfill e row := by
            unfold enrichWithRow
            rw [hskip]
          refine ih (enrichWithRow e row) ?_ ?_
          · rw [hrow, hurl, h1]
          · rw [hrow, hexc "Paper DOI / URL" (by decide), h2]

lemma repo_state_enrichFold (p : Article)
    (hp : (optTruthy p.repository_url || optTruthy (excelGet p "Repository URL")) = true)
    (rid : String) (sheets : List (List Row)) :
    ∀ e : Article, e.repository_url = p.repository_url →
      excelGet e "Repository URL" = excelGet p "Repository URL" →
      (sheets.foldl
        (fun e sheet =>
          match sheet.find? (fun row =>
              !(rowRayyanId row == "") && rowRayyanId row == jsTrim rid) with
          | some row => enrichWithRow e row
          | none => e) e).repository_url = p.repository_url
      ∧ excelGet (sheets.foldl
        (fun e sheet =>
          match sheet.find? (fun row =>
              !(rowRayyanId row == "") && rowRayyanId row == jsTrim rid) with
          | some row => enrichWithRow e row
          | none => e) e) "Repository URL" = excelGet p "Repository URL" := by
  induction sheets with
  | nil => intro e h1 h2; exact ⟨h1, h2⟩
  | cons sheet t ih =>
      intro e h1 h2
      simp only [List.foldl_cons]
      cases hf : sheet.find? (fun row =>
          !(rowRayyanId row == "") && rowRayyanId row == jsTrim rid) with
      | none => exact ih e h1 h2
      | some row =>
          have hdf := doiFrame_applyDoiBackfill e row
          obtain ⟨_, _, _, _, _, _, _, _, hrepo, hexc⟩ := hdf
          have h1d : (applyDoiBackfill e row).repository_url = p.repository_url := by
            rw [hrepo, h1]
          have h2d : excelGet (applyDoiBackfill e row) "Repository URL"
              = excelGet p "Repository URL" := by
            rw [hexc "Repository URL" (by decide), h2]
          have hskip : applyRepoBackfill (applyDoiBackfill e row) row
              = applyDoiBackfill e row := by
            apply applyRepoBackfill_skip
            rw [h1d, h2d]
            exact hp
          have hrow : enrichWithRow e row = applyDoiBackfill e row := by
            unfold enrichWithRow
            rw [hskip]
          refine ih (enrichWithRow e row) ?_ ?_
          · rw [hrow]
            exact h1d
          · rw [hrow]
            exact h2d

/-- C10: the cluster-link enrichment never overwrites populated link
fields and touches nothing else — with the dataset absent the paper list
is returned as-is; a paper with a truthy `url` (or a truthy
`excel_data['Paper DOI / URL']`) keeps both unchanged, and likewise for
`repository_url` (or `excel_data['Repository URL']`); and every other
field, including every other `excel_data` entry, is always returned
unchanged. -/
theorem enrich_preserves_populated_links (papers : List Article)
    (sheets : List (List Row)) (p : Article) :
    enrichPapersWithClusterLinks papers none = papers
    ∧ ((optTruthy p.url || optTruthy (excelGet p "Paper DOI / URL")) = true →
        (enrichOne sheets p).url = p.url
        ∧ excelGet (enrichOne sheets p) "Paper DOI / URL"
            = excelGet p "Paper DOI / URL")
    ∧ ((optTruthy p.repository_url || optTruthy (excelGet p "Repository URL")) = true →
        (enrichOne sheets p).repository_url = p.repository_url
        ∧ excelGet (enrichOne sheets p) "Repository URL"
            = excelGet p "Repository URL")
    ∧ otherFrame p (enrichOne sheets p) := by
  have hred : enrichOne sheets p
      = (if (paperRayyanId p == "") then p
         else sheets.foldl
           (fun e sheet =>
             match sheet.find? (fun row =>
                 !(rowRayyanId row == "") && rowRayyanId row == jsTrim (paperRayyanId p)) with
             | some row => enrichWithRow e row
             | none => e) p) := rfl
  refine ⟨rfl, ?_, ?_, ?_⟩
  · intro hp
    rw [hred]
    by_cases hid : (paperRayyanId p == "") = true
    · rw [if_pos hid]
      exact ⟨rfl, rfl⟩
    · rw [if_neg hid]
      exact url_state_enrichFold p hp (paperRayyanId p) sheets p rfl rfl
  · intro hp
    rw [hred]
    by_cases hid : (paperRayyanId p == "") = true
    · rw [if_pos hid]
      exact ⟨rfl, rfl⟩
    · rw [if_neg hid]
      exact repo_state_enrichFold p hp (paperRayyanId p) sheets p rfl rfl
  · rw [hred]
    by_cases hid : (paperRayyanId p == "") = true
    · rw [if_pos hid]
      exact otherFrame_refl p
    · rw [if_neg hid]
      exact otherFrame_enrichFold (paperRayyanId p) sheets p

/-- C10 witness: a paper with populated DOI and repository links, matched
by a row offering different links, keeps all its fields unchanged. -/
theorem enrich_preserves_populated_links_witness :
    (optTruthy linkedPaper.url || optTruthy (excelGet linkedPaper "Paper DOI / URL")) = true
    ∧ (optTruthy linkedPaper.repository_url
        || optTruthy (excelGet linkedPaper "Repository URL")) = true
    ∧ (enrichOne linkedSheets linkedPaper).url = linkedPaper.url
    ∧ (enrichOne linkedSheets linkedPaper).repository_url = linkedPaper.repository_url
    ∧ excelGet (enrichOne linkedSheets linkedPaper) "Other" = excelGet linkedPaper "Other" :=
  ⟨by decide, by decide,
   ((enrich_preserves_populated_links [] linkedSheets linkedPaper).2.1 (by decide)).1,
   ((enrich_preserves_populated_links [] linkedSheets linkedPaper).2.2.1 (by decide)).1,
   ((enrich_preserves_populated_links [] linkedSheets linkedPaper).2.2.2).2.2.2.2.2.2.2.2
     "Other" (by decide) (by decide)⟩
